import Mathlib

/-!
# The DRM heavyweight hardware lock (`attic/drm/drm_lock.c`)

A shallow embedding of the lock word state machine (`drm_lock_take`,
`drm_lock_transfer`, `drm_lock_free`), the idle-lock path
(`drm_idlelock_take`, `drm_idlelock_release`), the ownership query
(`drm_i_have_hw_lock`) and the two ioctls (`drm_lock`, `drm_unlock`).

Conventions of the embedding

* `unsigned int` values (the lock word, a context id, the two waiter counters)
  are natural numbers; every operation that can leave the 32-bit range wraps
  explicitly (`u32_inc`, `u32_dec`, the sum `% 2 ^ 32` in `drm_lock_take`).
  Counters that only count events (`lock_count`, the statistics) are
  unbounded.
* A compare-and-set loop `do { old = *lock; new = f old; } while (!cmpset ...)`
  is the atomic update `*lock := f (*lock)`; `old` and `new` are the values of
  the winning iteration.
* Every function returns the value it returns in C, the state it leaves, and
  the list of externally visible events (log lines, condition-variable
  broadcasts, driver hooks) it issued, in order.
* The blocking wait `cv_wait_sig` of `drm_lock` releases the mutex: each wait
  the call goes through is described by a `Wait`, holding what the other
  threads did to the lock data meanwhile and the value `cv_wait_sig` returned.
-/

namespace Drm

/-! ## Constants and macros of `drm.h` -/

/-- Modelled from the spec: the `held` bit of the lock word (`_DRM_LOCK_HELD`
of `drm.h`, which is not part of the sources), bit 31. -/
def _DRM_LOCK_HELD : Nat := 0x80000000

/-- Modelled from the spec: the `contended` bit of the lock word
(`_DRM_LOCK_CONT` of `drm.h`), bit 30. -/
def _DRM_LOCK_CONT : Nat := 0x40000000

/-- Modelled from the spec: `_DRM_LOCK_IS_HELD(lock)` of `drm.h`,
`(lock) & _DRM_LOCK_HELD`; non-zero means held. -/
def _DRM_LOCK_IS_HELD (lock : Nat) : Nat := lock &&& _DRM_LOCK_HELD

/-- Modelled from the spec: `_DRM_LOCK_IS_CONT(lock)` of `drm.h`,
`(lock) & _DRM_LOCK_CONT`; non-zero means contended. -/
def _DRM_LOCK_IS_CONT (lock : Nat) : Nat := lock &&& _DRM_LOCK_CONT

/-- Modelled from the spec: `_DRM_LOCKING_CONTEXT(lock)` of `drm.h`,
`(lock) & ~(_DRM_LOCK_HELD|_DRM_LOCK_CONT)` on 32 bits: the owner field,
bits 0 to 29. -/
def _DRM_LOCKING_CONTEXT (lock : Nat) : Nat :=
  lock &&& (0xffffffff ^^^ (_DRM_LOCK_HELD ||| _DRM_LOCK_CONT))

/-- Modelled from the spec: the reserved context id of the kernel
(`DRM_KERNEL_CONTEXT` of `drm.h`); `drm_lock_free` passes the literal `0`
for it. -/
def DRM_KERNEL_CONTEXT : Nat := 0

/-- Modelled from the spec: flag bit of `struct drm_lock` asking for the
`dma_ready` hook (`_DRM_LOCK_READY` of `drm.h`). -/
def _DRM_LOCK_READY : Nat := 0x01

/-- Modelled from the spec: flag bit of `struct drm_lock` asking for the
`dma_quiescent` hook (`_DRM_LOCK_QUIESCENT` of `drm.h`). -/
def _DRM_LOCK_QUIESCENT : Nat := 0x02

/-- Error number `EINTR`. -/
def EINTR : Int := 4
/-- Error number `EBUSY`. -/
def EBUSY : Int := 16
/-- Error number `EINVAL`. -/
def EINVAL : Int := 22

/-- The increment `x++` of an `unsigned` 32-bit counter. -/
def u32_inc (x : Nat) : Nat := (x + 1) % 2 ^ 32

/-- The decrement `x--` of an `unsigned` 32-bit counter: zero wraps to
`2 ^ 32 - 1`. -/
def u32_dec (x : Nat) : Nat := if x = 0 then 2 ^ 32 - 1 else x - 1

/-! ## Data model -/

/-- Externally visible events a call issues. -/
inductive Event where
  | DRM_ERROR
  | cv_broadcast
  | dma_ready
  | dma_quiescent
  | kernel_context_switch (last new : Nat)
  | kernel_context_switch_unlock
  deriving DecidableEq, Repr

/-- Modelled from the spec: the `struct drm_lock_data` of a master (declared
in `drmP.h`, which is not part of the sources), the lock coordinator of the
spec. `hw_lock` is the lock word `hw_lock->lock`, `file_priv` the recorded
holder (`none` is `NULL`), `lock_time` the time of the last acquisition, the
waiter counters are `unsigned` 32-bit, `idle_has_lock` is an `int`. -/
structure drm_lock_data where
  hw_lock : Nat
  file_priv : Option Nat
  lock_time : Nat
  kernel_waiters : Nat
  user_waiters : Nat
  idle_has_lock : Nat
  deriving DecidableEq, Repr

/-- Modelled from the spec: the part of `struct drm_file` (declared in
`drmP.h`) the lock code uses, the caller handle of the spec. `handle` stands
for the address of the structure, `lock_count` counts the calls of
`drm_lock`. -/
structure drm_file where
  handle : Nat
  lock_count : Nat
  deriving DecidableEq, Repr

/-- Modelled from the spec: the driver hooks and the feature bit `drm_lock`
and `drm_unlock` consult (`struct drm_driver` of `drmP.h`). A hook is present
or not; `dma_quiescent` carries the value the hook returns. The hooks are
external collaborators: a call of one is recorded as an event. -/
structure drm_driver where
  DRIVER_DMA_QUEUE : Bool
  dma_ready : Bool
  dma_quiescent : Option Int
  kernel_context_switch : Bool
  kernel_context_switch_unlock : Bool
  deriving DecidableEq, Repr

/-- Modelled from the spec: the part of `struct drm_device` and of its master
(declared in `drmP.h`) the lock code uses. `lock` is `master->lock`,
`stat_locks` and `stat_unlocks` are `dev->counts[_DRM_STAT_LOCKS]` and
`dev->counts[_DRM_STAT_UNLOCKS]`. -/
structure drm_device where
  driver : drm_driver
  lock : drm_lock_data
  stat_locks : Nat
  stat_unlocks : Nat
  last_context : Nat
  deriving DecidableEq, Repr

/-- Modelled from the spec: the ioctl argument `struct drm_lock` (declared in
`drm.h`). `context` is the 32-bit pattern of the `int` field (a negative
value is one with bit 31 set). -/
structure drm_lock_arg where
  context : Nat
  flags : Nat
  deriving DecidableEq, Repr

/-! ## The lock word -/

/-- The new lock word `drm_lock_take` computes from the old one. -/
def drm_lock_take_new (lock_data : drm_lock_data) (context : Nat) : Nat :=
  let old := lock_data.hw_lock
  if old &&& _DRM_LOCK_HELD ≠ 0 then
    old ||| _DRM_LOCK_CONT
  else
    context ||| _DRM_LOCK_HELD |||
      (if (lock_data.user_waiters + lock_data.kernel_waiters) % 2 ^ 32 > 1
        then _DRM_LOCK_CONT else 0)

/-- The function `drm_lock_take`: returns one if the lock is held by `context`
afterwards, zero otherwise. -/
def drm_lock_take (lock_data : drm_lock_data) (context : Nat) :
    Nat × drm_lock_data × List Event :=
  let old := lock_data.hw_lock
  let new := drm_lock_take_new lock_data context
  let lock_data1 := { lock_data with hw_lock := new }
  if _DRM_LOCKING_CONTEXT old = context ∧ old &&& _DRM_LOCK_HELD ≠ 0 then
    (0, lock_data1, if context ≠ DRM_KERNEL_CONTEXT then [Event.DRM_ERROR] else [])
  else if _DRM_LOCKING_CONTEXT new = context ∧ new &&& _DRM_LOCK_HELD ≠ 0 then
    (1, lock_data1, [])
  else
    (0, lock_data1, [])

/-- The function `drm_lock_transfer`: hands the lock to `context` forcibly. -/
def drm_lock_transfer (lock_data : drm_lock_data) (context : Nat) :
    Nat × drm_lock_data :=
  (1, { lock_data with file_priv := none, hw_lock := context ||| _DRM_LOCK_HELD })

/-- The function `drm_lock_free`. -/
def drm_lock_free (lock_data : drm_lock_data) (context : Nat) :
    Nat × drm_lock_data × List Event :=
  if lock_data.kernel_waiters ≠ 0 then
    let lock_data1 := (drm_lock_transfer lock_data 0).2
    (1, { lock_data1 with idle_has_lock := 1 }, [])
  else
    let old := lock_data.hw_lock
    let new := _DRM_LOCKING_CONTEXT old
    let lock_data1 := { lock_data with hw_lock := new }
    if _DRM_LOCK_IS_HELD old ≠ 0 ∧ _DRM_LOCKING_CONTEXT old ≠ context then
      (1, lock_data1, [Event.DRM_ERROR])
    else
      (0, lock_data1, [Event.cv_broadcast])

/-! ## The idle lock -/

/-- The function `drm_idlelock_take`. -/
def drm_idlelock_take (lock_data : drm_lock_data) : drm_lock_data × List Event :=
  let lock_data1 :=
    { lock_data with kernel_waiters := u32_inc lock_data.kernel_waiters }
  if lock_data1.idle_has_lock = 0 then
    let r := drm_lock_take lock_data1 DRM_KERNEL_CONTEXT
    if r.1 = 1 then ({ r.2.1 with idle_has_lock := 1 }, r.2.2) else (r.2.1, r.2.2)
  else
    (lock_data1, [])

/-- The function `drm_idlelock_release`. -/
def drm_idlelock_release (lock_data : drm_lock_data) : drm_lock_data × List Event :=
  let lock_data1 :=
    { lock_data with kernel_waiters := u32_dec lock_data.kernel_waiters }
  if lock_data1.kernel_waiters = 0 then
    if lock_data1.idle_has_lock ≠ 0 then
      ({ lock_data1 with hw_lock := DRM_KERNEL_CONTEXT, idle_has_lock := 0 },
        [Event.cv_broadcast])
    else (lock_data1, [])
  else (lock_data1, [])

/-- The function `drm_i_have_hw_lock`; the lock word of the model always
exists, so the test of the pointer `master->lock.hw_lock` is true. -/
def drm_i_have_hw_lock (dev : drm_device) (file_priv : drm_file) : Bool :=
  decide (file_priv.lock_count ≠ 0) && true &&
    decide (_DRM_LOCK_IS_HELD dev.lock.hw_lock ≠ 0) &&
    decide (dev.lock.file_priv = some file_priv.handle)

/-! ## The ioctls -/

/-- One pass of a call of `drm_lock` through `cv_wait_sig`: `env` is what the
other threads did to the lock data while the mutex was released, `ret` the
value `cv_wait_sig` returned (zero: interrupted by a signal). -/
structure Wait where
  env : drm_lock_data → drm_lock_data
  ret : Int

/-- How a call of `drm_lock` ends: it returns a value, or it is still blocked
in `cv_wait_sig` when the described waits are used up. -/
inductive Status where
  | returned (ret : Int)
  | blocked
  deriving DecidableEq, Repr

/-- What a call of `drm_lock` leaves: `got_lock` tells that the loop was left
through the branch `break; /* Got lock */`. -/
structure LockResult where
  status : Status
  got_lock : Bool
  dev : drm_device
  file_priv : drm_file
  events : List Event

/-- The `for (;;)` loop of `drm_lock`, entered with the mutex held and the
local `ret`; the result is the value of `ret` at the `break` (`none` when the
call is still waiting), the lock data, the lock statistic and the events. -/
def drm_lock_loop (file_priv : drm_file) (context lbolt : Nat) :
    List Wait → Int → drm_lock_data → Nat → Option Int × Bool × drm_lock_data × Nat × List Event
  | [], ret, lock, stat =>
    let r := drm_lock_take lock context
    if r.1 ≠ 0 then
      (some ret, true,
        { r.2.1 with file_priv := some file_priv.handle, lock_time := lbolt }, stat + 1, r.2.2)
    else (none, false, r.2.1, stat, r.2.2)
  | w :: ws, ret, lock, stat =>
    let r := drm_lock_take lock context
    if r.1 ≠ 0 then
      (some ret, true,
        { r.2.1 with file_priv := some file_priv.handle, lock_time := lbolt }, stat + 1, r.2.2)
    else if w.ret = 0 then
      (some (-EINTR), false, w.env r.2.1, stat, r.2.2)
    else
      let q := drm_lock_loop file_priv context lbolt ws w.ret (w.env r.2.1) stat
      (q.1, q.2.1, q.2.2.1, q.2.2.2.1, r.2.2 ++ q.2.2.2.2)

/-- The rest of `drm_lock` after the loop, from `master->lock.user_waiters--`
to the end, with the value `ret` has at the `break`. -/
def drm_lock_tail (dev : drm_device) (lock : drm_lock_arg) (file_priv : drm_file)
    (ret : Int) (got_lock : Bool) (events : List Event) : LockResult :=
  let dev1 := { dev with lock :=
    { dev.lock with user_waiters := u32_dec dev.lock.user_waiters } }
  if ret ≠ 0 then ⟨Status.returned ret, got_lock, dev1, file_priv, events⟩
  else
    let ev1 := if dev.driver.dma_ready ∧ lock.flags &&& _DRM_LOCK_READY ≠ 0
      then [Event.dma_ready] else []
    if dev.driver.dma_quiescent.isSome ∧ lock.flags &&& _DRM_LOCK_QUIESCENT ≠ 0 ∧
        dev.driver.dma_quiescent ≠ some 0 then
      ⟨Status.returned (-EBUSY), got_lock, dev1, file_priv,
        events ++ ev1 ++ [Event.dma_quiescent]⟩
    else
      let ev2 := if dev.driver.dma_quiescent.isSome ∧ lock.flags &&& _DRM_LOCK_QUIESCENT ≠ 0
        then [Event.dma_quiescent] else []
      let ev3 := if dev.driver.kernel_context_switch ∧ dev.last_context ≠ lock.context
        then [Event.kernel_context_switch dev.last_context lock.context] else []
      ⟨Status.returned 0, got_lock, dev1, file_priv, events ++ ev1 ++ ev2 ++ ev3⟩

/-- The function `drm_lock` from the top of its loop on: the loop with the
given waits, then the rest of the function. A call that went to sleep in
`cv_wait_sig` and is woken continues here with the value `cv_wait_sig`
returned in `ret`. -/
def drm_lock_resume (dev : drm_device) (lock : drm_lock_arg) (file_priv : drm_file)
    (lbolt : Nat) (ret : Int) (waits : List Wait) : LockResult :=
  let q := drm_lock_loop file_priv lock.context lbolt waits ret dev.lock dev.stat_locks
  let dev1 := { dev with lock := q.2.2.1, stat_locks := q.2.2.2.1 }
  match q.1 with
  | none => ⟨Status.blocked, false, dev1, file_priv, q.2.2.2.2⟩
  | some r => drm_lock_tail dev1 lock file_priv r q.2.1 q.2.2.2.2

/-- The ioctl `drm_lock`; `lbolt` is the value of `ddi_get_lbolt()` and
`waits` describes the waits the call goes through. -/
def drm_lock (dev : drm_device) (lock : drm_lock_arg) (file_priv : drm_file)
    (lbolt : Nat) (waits : List Wait) : LockResult :=
  let file_priv1 := { file_priv with lock_count := file_priv.lock_count + 1 }
  if lock.context = DRM_KERNEL_CONTEXT then
    ⟨Status.returned (-EINVAL), false, dev, file_priv1, [Event.DRM_ERROR]⟩
  else if dev.driver.DRIVER_DMA_QUEUE ∧ 2 ^ 31 ≤ lock.context then
    ⟨Status.returned (-EINVAL), false, dev, file_priv1, []⟩
  else
    let dev1 := { dev with lock :=
      { dev.lock with user_waiters := u32_inc dev.lock.user_waiters } }
    drm_lock_resume dev1 lock file_priv1 lbolt 0 waits

/-- The ioctl `drm_unlock`. -/
def drm_unlock (dev : drm_device) (lock : drm_lock_arg) : Int × drm_device × List Event :=
  if lock.context = DRM_KERNEL_CONTEXT then
    (-EINVAL, dev, [Event.DRM_ERROR])
  else
    let dev1 := { dev with stat_unlocks := dev.stat_unlocks + 1 }
    if dev.driver.kernel_context_switch_unlock then
      (0, dev1, [Event.kernel_context_switch_unlock])
    else
      let r := drm_lock_free dev1.lock lock.context
      (0, { dev1 with lock := r.2.1 }, r.2.2)

/-! ## Interleavings

The lock data is only touched with `lock_mutex` held (the compare-and-set on
the lock word is atomic by itself), so a run of concurrent callers is a
sequence of atomic calls: a call of `drm_lock` is cut at each `cv_wait_sig`. -/

/-- The atomic steps of a run: a new call of `drm_lock` by a file (up to its
first wait, or to its return); a waiting call woken (`cv_wait_sig` returned
the non-zero `ret`) that goes round the loop again; a waiting call interrupted
by a signal; a call of `drm_unlock`; the two idle-lock functions. -/
inductive Call where
  | lock (file : Nat) (arg : drm_lock_arg) (lbolt : Nat)
  | wake (file : Nat) (arg : drm_lock_arg) (lbolt : Nat) (ret : Int)
  | signal (file : Nat) (arg : drm_lock_arg)
  | unlock (file : Nat) (arg : drm_lock_arg)
  | idlelock_take
  | idlelock_release

/-- The state of a run: the device, the `lock_count` of every file, the calls
of `drm_lock` asleep in `cv_wait_sig`, and as a ghost the acquisitions made
(file and context of every call that left the loop with the lock) that the
file has not given back by `drm_unlock` with that context. -/
structure System where
  dev : drm_device
  lock_count : Nat → Nat
  waiting : List (Nat × drm_lock_arg)
  holding : List (Nat × Nat)

/-- The state at device initialisation: lock word free, no waiter, no
recorded holder. -/
def System.init (driver : drm_driver) : System where
  dev := ⟨driver, ⟨0, none, 0, 0, 0, 0⟩, 0, 0, 0⟩
  lock_count := fun _ => 0
  waiting := []
  holding := []

/-- The state after a call of `drm_lock` (or its continuation) with result `r`. -/
def System.after_lock (s : System) (file : Nat) (arg : drm_lock_arg) (r : LockResult)
    (waiting : List (Nat × drm_lock_arg)) : System where
  dev := r.dev
  lock_count := Function.update s.lock_count file r.file_priv.lock_count
  waiting := if r.status = Status.blocked then (file, arg) :: waiting else waiting
  holding := if r.got_lock then (file, arg.context) :: s.holding else s.holding

/-- One atomic step; `none` when the step is not possible (no such waiting
call). -/
def System.step (s : System) : Call → Option System
  | Call.lock file arg lbolt =>
    some (s.after_lock file arg
      (drm_lock s.dev arg ⟨file, s.lock_count file⟩ lbolt []) s.waiting)
  | Call.wake file arg lbolt ret =>
    if (file, arg) ∈ s.waiting ∧ ret ≠ 0 then
      some (s.after_lock file arg
        (drm_lock_resume s.dev arg ⟨file, s.lock_count file⟩ lbolt ret [])
        (s.waiting.erase (file, arg)))
    else none
  | Call.signal file arg =>
    if (file, arg) ∈ s.waiting then
      some (s.after_lock file arg
        (drm_lock_tail s.dev arg ⟨file, s.lock_count file⟩ (-EINTR) false [])
        (s.waiting.erase (file, arg)))
    else none
  | Call.unlock file arg =>
    some { s with
      dev := (drm_unlock s.dev arg).2.1
      holding := if arg.context = DRM_KERNEL_CONTEXT then s.holding
        else s.holding.filter (fun h => decide (h ≠ (file, arg.context))) }
  | Call.idlelock_take =>
    some { s with dev := { s.dev with lock := (drm_idlelock_take s.dev.lock).1 } }
  | Call.idlelock_release =>
    some { s with dev := { s.dev with lock := (drm_idlelock_release s.dev.lock).1 } }

/-- The state after a sequence of atomic steps. -/
def System.run (s : System) : List Call → Option System
  | [] => some s
  | c :: cs => (s.step c).bind (fun s1 => s1.run cs)

/-- A file holding an acquisition with `context` observes the lock word as
held with itself as owner. -/
def System.observes (s : System) (file context : Nat) : Prop :=
  (file, context) ∈ s.holding ∧ _DRM_LOCK_IS_HELD s.dev.lock.hw_lock ≠ 0 ∧
    _DRM_LOCKING_CONTEXT s.dev.lock.hw_lock = context

/-- Other threads leave the lock word and the two waiter counters as they
found them during this wait. -/
def Wait.quiet (w : Wait) : Prop :=
  ∀ lock_data : drm_lock_data,
    (w.env lock_data).hw_lock = lock_data.hw_lock ∧
    (w.env lock_data).kernel_waiters = lock_data.kernel_waiters ∧
    (w.env lock_data).user_waiters = lock_data.user_waiters

/-- Other threads leave the two waiter counters as they found them during
this wait (they may take, free or transfer the lock). -/
def Wait.keeps_waiters (w : Wait) : Prop :=
  ∀ lock_data : drm_lock_data,
    (w.env lock_data).kernel_waiters = lock_data.kernel_waiters ∧
    (w.env lock_data).user_waiters = lock_data.user_waiters

/-- The invariant of the lock word: a contended lock is held. -/
def contended_implies_held (lock : Nat) : Prop :=
  _DRM_LOCK_IS_CONT lock ≠ 0 → _DRM_LOCK_IS_HELD lock ≠ 0

/-- The steps of a run in which, besides the calls of the clients and of the
idle lock, kernel code calls `drm_lock_free` directly, with any context. -/
inductive Op where
  | call (c : Call)
  | free (context : Nat)

/-- One atomic step of such a run. -/
def System.op (s : System) : Op → Option System
  | Op.call c => s.step c
  | Op.free context =>
    some { s with dev := { s.dev with lock := (drm_lock_free s.dev.lock context).2.1 } }

/-- The state after a sequence of such steps. -/
def System.run_ops (s : System) : List Op → Option System
  | [] => some s
  | o :: os => (s.op o).bind (fun s1 => s1.run_ops os)

/-- Every `drm_idlelock_release` of the run is matched by an earlier
`drm_idlelock_take`, `n` of which are outstanding at the start. -/
def idle_matched : Nat → List Op → Prop
  | _, [] => True
  | n, Op.call Call.idlelock_take :: os => idle_matched (n + 1) os
  | n, Op.call Call.idlelock_release :: os => 0 < n ∧ idle_matched (n - 1) os
  | n, _ :: os => idle_matched n os

/-- The counter the step increments does not overflow. -/
def System.fits (s : System) : Op → Prop
  | Op.call (Call.lock _ _ _) => s.dev.lock.user_waiters + 1 < 2 ^ 32
  | Op.call Call.idlelock_take => s.dev.lock.kernel_waiters + 1 < 2 ^ 32
  | _ => True

/-- No counter overflows in the run of `os` from `s`. -/
def System.no_overflow : System → List Op → Prop
  | _, [] => True
  | s, o :: os =>
    s.fits o ∧
    (match s.op o with
      | some s1 => s1.no_overflow os
      | none => True)

/-- With `n` idle acquisitions outstanding: `kernel_waiters` is `n`, and
`idle_has_lock` set implies that `n` is not zero and that the lock word is
held with the kernel context as owner. -/
def idle_invariant (lock_data : drm_lock_data) (n : Nat) : Prop :=
  lock_data.kernel_waiters = n ∧
    (lock_data.idle_has_lock ≠ 0 →
      n ≠ 0 ∧ _DRM_LOCK_IS_HELD lock_data.hw_lock ≠ 0 ∧
        _DRM_LOCKING_CONTEXT lock_data.hw_lock = DRM_KERNEL_CONTEXT)

/-! ## Lock word arithmetic -/

theorem HELD_eq : _DRM_LOCK_HELD = 2 ^ 31 := by decide

theorem CONT_eq : _DRM_LOCK_CONT = 2 ^ 30 := by decide

theorem locking_context_eq_mod (w : Nat) : _DRM_LOCKING_CONTEXT w = w % 2 ^ 30 := by
  unfold _DRM_LOCKING_CONTEXT _DRM_LOCK_HELD _DRM_LOCK_CONT
  have h : (0xffffffff ^^^ (0x80000000 ||| 0x40000000) : Nat) = 2 ^ 30 - 1 := by decide
  rw [h, Nat.and_pow_two_sub_one_eq_mod]

theorem and_HELD (w : Nat) : w &&& _DRM_LOCK_HELD = (w.testBit 31).toNat * 2 ^ 31 := by
  rw [HELD_eq, Nat.and_two_pow]

theorem and_CONT (w : Nat) : w &&& _DRM_LOCK_CONT = (w.testBit 30).toNat * 2 ^ 30 := by
  rw [CONT_eq, Nat.and_two_pow]

theorem held_ne_zero_iff (w : Nat) : w &&& _DRM_LOCK_HELD ≠ 0 ↔ w.testBit 31 = true := by
  rw [and_HELD]; cases w.testBit 31 <;> simp

theorem cont_ne_zero_iff (w : Nat) : w &&& _DRM_LOCK_CONT ≠ 0 ↔ w.testBit 30 = true := by
  rw [and_CONT]; cases w.testBit 30 <;> simp

theorem locking_context_or_cont (w : Nat) :
    _DRM_LOCKING_CONTEXT (w ||| _DRM_LOCK_CONT) = _DRM_LOCKING_CONTEXT w := by
  rw [locking_context_eq_mod, locking_context_eq_mod, CONT_eq]
  apply Nat.eq_of_testBit_eq
  intro i
  simp only [Nat.testBit_mod_two_pow, Nat.testBit_lor, Nat.testBit_two_pow]
  by_cases h : i < 30
  · have h1 : ¬ (30 = i) := by omega
    simp [h, h1]
  · simp [h]

theorem testBit_or_cont_31 (w : Nat) :
    (w ||| _DRM_LOCK_CONT).testBit 31 = w.testBit 31 := by
  rw [CONT_eq, Nat.testBit_lor, Nat.testBit_two_pow]; simp

theorem testBit_or_cont_30 (w : Nat) : (w ||| _DRM_LOCK_CONT).testBit 30 = true := by
  rw [CONT_eq, Nat.testBit_lor, Nat.testBit_two_pow]; simp

theorem and_HELD_or_cont (w : Nat) :
    (w ||| _DRM_LOCK_CONT) &&& _DRM_LOCK_HELD = w &&& _DRM_LOCK_HELD := by
  rw [and_HELD, and_HELD, testBit_or_cont_31]

theorem locking_context_new (c x : Nat) (hx : x = _DRM_LOCK_CONT ∨ x = 0) :
    _DRM_LOCKING_CONTEXT (c ||| _DRM_LOCK_HELD ||| x) = c % 2 ^ 30 := by
  rw [locking_context_eq_mod]
  apply Nat.eq_of_testBit_eq
  intro i
  rcases hx with rfl | rfl
  · simp only [Nat.testBit_mod_two_pow, Nat.testBit_lor, HELD_eq, CONT_eq,
      Nat.testBit_two_pow]
    by_cases h : i < 30
    · have h1 : ¬ (30 = i) := by omega
      have h2 : ¬ (31 = i) := by omega
      simp [h, h1, h2]
    · simp [h]
  · simp only [Nat.testBit_mod_two_pow, Nat.testBit_lor, HELD_eq, Nat.testBit_two_pow,
      Nat.zero_testBit]
    by_cases h : i < 30
    · have h2 : ¬ (31 = i) := by omega
      simp [h, h2]
    · simp [h]

theorem testBit_new_31 (c x : Nat) : (c ||| _DRM_LOCK_HELD ||| x).testBit 31 = true := by
  rw [Nat.testBit_lor, Nat.testBit_lor, HELD_eq, Nat.testBit_two_pow_self]; simp

theorem testBit_of_lt (c i k : Nat) (h : c < 2 ^ k) (hi : k ≤ i) : c.testBit i = false := by
  apply Nat.testBit_eq_false_of_lt
  exact lt_of_lt_of_le h (Nat.pow_le_pow_right (by norm_num) hi)

theorem testBit_new_30 (c x : Nat) (hc : c < 2 ^ 30) :
    (c ||| _DRM_LOCK_HELD ||| x).testBit 30 = x.testBit 30 := by
  rw [Nat.testBit_lor, Nat.testBit_lor, HELD_eq, Nat.testBit_two_pow,
    testBit_of_lt c 30 30 hc (le_refl _)]
  simp

theorem testBit_locking_context (w i : Nat) (hi : 30 ≤ i) :
    (_DRM_LOCKING_CONTEXT w).testBit i = false := by
  rw [locking_context_eq_mod, Nat.testBit_mod_two_pow]
  have h : ¬ i < 30 := by omega
  simp [h]

theorem locking_context_idem (w : Nat) :
    _DRM_LOCKING_CONTEXT (_DRM_LOCKING_CONTEXT w) = _DRM_LOCKING_CONTEXT w := by
  rw [locking_context_eq_mod, locking_context_eq_mod]
  exact Nat.mod_mod _ _

/-! ## Facts about `drm_lock_take` shared by the claims -/

theorem drm_lock_take_new_held (lock_data : drm_lock_data) (context : Nat)
    (h : lock_data.hw_lock &&& _DRM_LOCK_HELD ≠ 0) :
    drm_lock_take_new lock_data context = lock_data.hw_lock ||| _DRM_LOCK_CONT := by
  simp only [drm_lock_take_new]
  rw [if_pos h]

theorem drm_lock_take_new_free (lock_data : drm_lock_data) (context : Nat)
    (h : ¬ lock_data.hw_lock &&& _DRM_LOCK_HELD ≠ 0) :
    drm_lock_take_new lock_data context = context ||| _DRM_LOCK_HELD |||
      (if (lock_data.user_waiters + lock_data.kernel_waiters) % 2 ^ 32 > 1
        then _DRM_LOCK_CONT else 0) := by
  simp only [drm_lock_take_new]
  rw [if_neg h]

theorem drm_lock_take_lock_data (lock_data : drm_lock_data) (context : Nat) :
    (drm_lock_take lock_data context).2.1 =
      { lock_data with hw_lock := drm_lock_take_new lock_data context } := by
  simp only [drm_lock_take]
  split_ifs <;> rfl

theorem drm_lock_take_ret_held (lock_data : drm_lock_data) (context : Nat)
    (h : lock_data.hw_lock &&& _DRM_LOCK_HELD ≠ 0) :
    (drm_lock_take lock_data context).1 = 0 := by
  simp only [drm_lock_take]
  by_cases hc : _DRM_LOCKING_CONTEXT lock_data.hw_lock = context
  · rw [if_pos ⟨hc, h⟩]
  · have h1 : ¬ (_DRM_LOCKING_CONTEXT lock_data.hw_lock = context ∧
        lock_data.hw_lock &&& _DRM_LOCK_HELD ≠ 0) := fun hh => hc hh.1
    have h2 : ¬ (_DRM_LOCKING_CONTEXT (drm_lock_take_new lock_data context) = context ∧
        drm_lock_take_new lock_data context &&& _DRM_LOCK_HELD ≠ 0) := by
      rw [drm_lock_take_new_held lock_data context h, locking_context_or_cont]
      exact fun hh => hc hh.1
    rw [if_neg h1, if_neg h2]

theorem drm_lock_take_ret_free (lock_data : drm_lock_data) (context : Nat)
    (h : ¬ lock_data.hw_lock &&& _DRM_LOCK_HELD ≠ 0) :
    (drm_lock_take lock_data context).1 = if context % 2 ^ 30 = context then 1 else 0 := by
  have hx : ((if (lock_data.user_waiters + lock_data.kernel_waiters) % 2 ^ 32 > 1
      then _DRM_LOCK_CONT else 0) = _DRM_LOCK_CONT) ∨
      ((if (lock_data.user_waiters + lock_data.kernel_waiters) % 2 ^ 32 > 1
      then _DRM_LOCK_CONT else 0) = 0) := by
    split_ifs
    · exact Or.inl rfl
    · exact Or.inr rfl
  have h1 : ¬ (_DRM_LOCKING_CONTEXT lock_data.hw_lock = context ∧
      lock_data.hw_lock &&& _DRM_LOCK_HELD ≠ 0) := fun hh => h hh.2
  have hnew : drm_lock_take_new lock_data context &&& _DRM_LOCK_HELD ≠ 0 := by
    rw [drm_lock_take_new_free lock_data context h, held_ne_zero_iff, testBit_new_31]
  have hctx : _DRM_LOCKING_CONTEXT (drm_lock_take_new lock_data context) = context % 2 ^ 30 := by
    rw [drm_lock_take_new_free lock_data context h, locking_context_new _ _ hx]
  simp only [drm_lock_take]
  rw [if_neg h1, hctx]
  by_cases hc : context % 2 ^ 30 = context
  · rw [if_pos ⟨hc, hnew⟩, if_pos hc]
  · rw [if_neg (fun hh => hc hh.1), if_neg hc]

/-! ## Facts about `drm_lock_free` shared by the claims -/

theorem is_held_locking_context (w : Nat) : _DRM_LOCK_IS_HELD (_DRM_LOCKING_CONTEXT w) = 0 := by
  show _DRM_LOCKING_CONTEXT w &&& _DRM_LOCK_HELD = 0
  rw [and_HELD, testBit_locking_context w 31 (by norm_num)]
  rfl

theorem is_cont_locking_context (w : Nat) : _DRM_LOCK_IS_CONT (_DRM_LOCKING_CONTEXT w) = 0 := by
  show _DRM_LOCKING_CONTEXT w &&& _DRM_LOCK_CONT = 0
  rw [and_CONT, testBit_locking_context w 30 (by norm_num)]
  rfl

theorem drm_lock_free_transfer (lock_data : drm_lock_data) (context : Nat)
    (h : lock_data.kernel_waiters ≠ 0) :
    drm_lock_free lock_data context =
      (1, { lock_data with file_priv := none, hw_lock := 0 ||| _DRM_LOCK_HELD,
                           idle_has_lock := 1 }, []) := by
  simp only [drm_lock_free, drm_lock_transfer]
  rw [if_pos h]

theorem drm_lock_free_foreign (lock_data : drm_lock_data) (context : Nat)
    (hk : lock_data.kernel_waiters = 0)
    (h : _DRM_LOCK_IS_HELD lock_data.hw_lock ≠ 0 ∧
      _DRM_LOCKING_CONTEXT lock_data.hw_lock ≠ context) :
    drm_lock_free lock_data context =
      (1, { lock_data with hw_lock := _DRM_LOCKING_CONTEXT lock_data.hw_lock },
        [Event.DRM_ERROR]) := by
  simp only [drm_lock_free]
  rw [if_neg (fun hh => hh hk), if_pos h]

theorem drm_lock_free_released (lock_data : drm_lock_data) (context : Nat)
    (hk : lock_data.kernel_waiters = 0)
    (h : ¬ (_DRM_LOCK_IS_HELD lock_data.hw_lock ≠ 0 ∧
      _DRM_LOCKING_CONTEXT lock_data.hw_lock ≠ context)) :
    drm_lock_free lock_data context =
      (0, { lock_data with hw_lock := _DRM_LOCKING_CONTEXT lock_data.hw_lock },
        [Event.cv_broadcast]) := by
  simp only [drm_lock_free]
  rw [if_neg (fun hh => hh hk), if_neg h]

/-! ## Facts about `drm_lock` shared by the claims -/

theorem drm_lock_loop_nil_held (file_priv : drm_file) (context lbolt : Nat) (ret : Int)
    (lock : drm_lock_data) (stat : Nat) (h : lock.hw_lock &&& _DRM_LOCK_HELD ≠ 0) :
    drm_lock_loop file_priv context lbolt [] ret lock stat =
      (none, false, { lock with hw_lock := lock.hw_lock ||| _DRM_LOCK_CONT }, stat,
        (drm_lock_take lock context).2.2) := by
  simp only [drm_lock_loop]
  rw [drm_lock_take_ret_held lock context h, drm_lock_take_lock_data,
    drm_lock_take_new_held lock context h]
  simp

theorem drm_lock_resume_nil_held (dev : drm_device) (arg : drm_lock_arg)
    (file_priv : drm_file) (lbolt : Nat) (ret : Int)
    (h : dev.lock.hw_lock &&& _DRM_LOCK_HELD ≠ 0) :
    drm_lock_resume dev arg file_priv lbolt ret [] =
      ⟨Status.blocked, false,
        { dev with lock := { dev.lock with hw_lock := dev.lock.hw_lock ||| _DRM_LOCK_CONT } },
        file_priv, (drm_lock_take dev.lock arg.context).2.2⟩ := by
  simp only [drm_lock_resume]
  rw [drm_lock_loop_nil_held file_priv arg.context lbolt ret dev.lock dev.stat_locks h]

theorem drm_lock_blocked_of_held (dev : drm_device) (arg : drm_lock_arg) (file_priv : drm_file)
    (lbolt : Nat) (hk : arg.context ≠ DRM_KERNEL_CONTEXT)
    (hq : ¬ (dev.driver.DRIVER_DMA_QUEUE = true ∧ 2 ^ 31 ≤ arg.context))
    (h : dev.lock.hw_lock &&& _DRM_LOCK_HELD ≠ 0) :
    (drm_lock dev arg file_priv lbolt []).status = Status.blocked ∧
    (drm_lock dev arg file_priv lbolt []).got_lock = false ∧
    (drm_lock dev arg file_priv lbolt []).dev.lock =
      { dev.lock with
        user_waiters := u32_inc dev.lock.user_waiters
        hw_lock := dev.lock.hw_lock ||| _DRM_LOCK_CONT } := by
  have hr := drm_lock_resume_nil_held
    { dev with lock :=
      { dev.lock with user_waiters := u32_inc dev.lock.user_waiters } }
    arg { file_priv with lock_count := file_priv.lock_count + 1 } lbolt 0 h
  simp only [drm_lock]
  rw [if_neg hk, if_neg hq, hr]
  exact ⟨rfl, rfl, rfl⟩

theorem drm_lock_tail_got_lock (dev : drm_device) (arg : drm_lock_arg) (file_priv : drm_file)
    (ret : Int) (got_lock : Bool) (events : List Event) :
    (drm_lock_tail dev arg file_priv ret got_lock events).got_lock = got_lock := by
  simp only [drm_lock_tail]
  split_ifs <;> rfl

theorem drm_lock_tail_dev (dev : drm_device) (arg : drm_lock_arg) (file_priv : drm_file)
    (ret : Int) (got_lock : Bool) (events : List Event) :
    (drm_lock_tail dev arg file_priv ret got_lock events).dev =
      { dev with lock :=
        { dev.lock with user_waiters := u32_dec dev.lock.user_waiters } } := by
  simp only [drm_lock_tail]
  split_ifs <;> rfl

theorem drm_lock_tail_status (dev : drm_device) (arg : drm_lock_arg) (file_priv : drm_file)
    (ret : Int) (got_lock : Bool) (events : List Event) :
    (drm_lock_tail dev arg file_priv ret got_lock events).status ≠ Status.blocked := by
  simp only [drm_lock_tail]
  split_ifs <;> simp

theorem drm_lock_tail_status_of_ne (dev : drm_device) (arg : drm_lock_arg)
    (file_priv : drm_file) (ret : Int) (got_lock : Bool) (events : List Event)
    (h : ret ≠ 0) :
    (drm_lock_tail dev arg file_priv ret got_lock events).status = Status.returned ret := by
  simp only [drm_lock_tail]
  rw [if_pos h]

theorem dec_inc_waiters (x : Nat) (h : x < 2 ^ 32) : u32_dec (u32_inc x) = x := by
  unfold u32_dec u32_inc
  split_ifs <;> omega

theorem or_cont_or_cont (w : Nat) :
    (w ||| _DRM_LOCK_CONT) ||| _DRM_LOCK_CONT = w ||| _DRM_LOCK_CONT := by
  rw [Nat.lor_assoc, Nat.or_self]

/-- The loop of `drm_lock` on a held lock that stays as it is: after any
number of wake-ups the signal ends it with `-EINTR`. -/
theorem drm_lock_loop_interrupted (file_priv : drm_file) (context lbolt : Nat)
    (sig : Wait) (rest : List Wait) (hsig : sig.ret = 0 ∧ sig.quiet) :
    ∀ (pre : List Wait) (ret : Int) (lock : drm_lock_data) (stat : Nat),
      lock.hw_lock &&& _DRM_LOCK_HELD ≠ 0 →
      (∀ w ∈ pre, w.ret ≠ 0 ∧ w.quiet) →
      (drm_lock_loop file_priv context lbolt (pre ++ sig :: rest) ret lock stat).1
        = some (-EINTR) ∧
      (drm_lock_loop file_priv context lbolt (pre ++ sig :: rest) ret lock stat).2.1
        = false ∧
      (drm_lock_loop file_priv context lbolt (pre ++ sig :: rest) ret lock stat).2.2.1.hw_lock
        = lock.hw_lock ||| _DRM_LOCK_CONT ∧
      (drm_lock_loop file_priv context lbolt
        (pre ++ sig :: rest) ret lock stat).2.2.1.user_waiters = lock.user_waiters ∧
      (drm_lock_loop file_priv context lbolt
        (pre ++ sig :: rest) ret lock stat).2.2.1.kernel_waiters = lock.kernel_waiters := by
  intro pre
  induction pre with
  | nil =>
    intro ret lock stat hheld _
    have ht := drm_lock_take_ret_held lock context hheld
    have hl := drm_lock_take_lock_data lock context
    rw [drm_lock_take_new_held lock context hheld] at hl
    simp only [List.nil_append, drm_lock_loop]
    rw [ht, hl, if_neg (fun hh : (0 : Nat) ≠ 0 => hh rfl), if_pos hsig.1]
    have hq := hsig.2 { lock with hw_lock := lock.hw_lock ||| _DRM_LOCK_CONT }
    exact ⟨rfl, rfl, hq.1, hq.2.2, hq.2.1⟩
  | cons w pre ih =>
    intro ret lock stat hheld hpre
    have hw := hpre w (List.mem_cons_self w pre)
    have ht := drm_lock_take_ret_held lock context hheld
    have hl := drm_lock_take_lock_data lock context
    rw [drm_lock_take_new_held lock context hheld] at hl
    have hq := hw.2 { lock with hw_lock := lock.hw_lock ||| _DRM_LOCK_CONT }
    have hheld1 : (w.env { lock with hw_lock := lock.hw_lock ||| _DRM_LOCK_CONT }).hw_lock
        &&& _DRM_LOCK_HELD ≠ 0 := by
      rw [hq.1]
      show (lock.hw_lock ||| _DRM_LOCK_CONT) &&& _DRM_LOCK_HELD ≠ 0
      rw [and_HELD_or_cont]; exact hheld
    have h := ih w.ret (w.env { lock with hw_lock := lock.hw_lock ||| _DRM_LOCK_CONT }) stat
      hheld1 (fun v hv => hpre v (List.mem_cons_of_mem w hv))
    simp only [List.cons_append, drm_lock_loop]
    rw [ht, hl, if_neg (fun hh : (0 : Nat) ≠ 0 => hh rfl), if_neg hw.1]
    refine ⟨h.1, h.2.1, ?_, ?_, ?_⟩
    · exact h.2.2.1.trans (by rw [hq.1]; exact or_cont_or_cont _)
    · exact h.2.2.2.1.trans hq.2.2
    · exact h.2.2.2.2.trans hq.2.1

/-- The loop of `drm_lock` leaves the waiter counters alone when the other
threads do. -/
theorem drm_lock_loop_waiters (file_priv : drm_file) (context lbolt : Nat) :
    ∀ (waits : List Wait) (ret : Int) (lock : drm_lock_data) (stat : Nat),
      (∀ w ∈ waits, w.keeps_waiters) →
      (drm_lock_loop file_priv context lbolt waits ret lock stat).2.2.1.kernel_waiters
        = lock.kernel_waiters ∧
      (drm_lock_loop file_priv context lbolt waits ret lock stat).2.2.1.user_waiters
        = lock.user_waiters := by
  intro waits
  induction waits with
  | nil =>
    intro ret lock stat _
    simp only [drm_lock_loop]
    split_ifs <;> simp [drm_lock_take_lock_data]
  | cons w ws ih =>
    intro ret lock stat hws
    have hw := hws w (List.mem_cons_self w ws)
    have hk := hw (drm_lock_take lock context).2.1
    have h := ih w.ret (w.env (drm_lock_take lock context).2.1) stat
      (fun v hv => hws v (List.mem_cons_of_mem w hv))
    simp only [drm_lock_loop]
    split_ifs
    · simp [drm_lock_take_lock_data]
    · simp only []
      rw [hk.1, hk.2]
      simp [drm_lock_take_lock_data]
    · simp only []
      rw [h.1, h.2, hk.1, hk.2]
      simp [drm_lock_take_lock_data]

theorem drm_lock_resume_some (dev : drm_device) (arg : drm_lock_arg) (file_priv : drm_file)
    (lbolt : Nat) (ret : Int) (waits : List Wait) (r : Int)
    (h : (drm_lock_loop file_priv arg.context lbolt waits ret dev.lock dev.stat_locks).1
      = some r) :
    drm_lock_resume dev arg file_priv lbolt ret waits =
      drm_lock_tail
        { dev with
          lock := (drm_lock_loop file_priv arg.context lbolt waits ret
            dev.lock dev.stat_locks).2.2.1
          stat_locks := (drm_lock_loop file_priv arg.context lbolt waits ret
            dev.lock dev.stat_locks).2.2.2.1 }
        arg file_priv r
        (drm_lock_loop file_priv arg.context lbolt waits ret dev.lock dev.stat_locks).2.1
        (drm_lock_loop file_priv arg.context lbolt waits ret dev.lock dev.stat_locks).2.2.2.2
    := by
  simp only [drm_lock_resume]
  rw [h]

theorem drm_lock_resume_none (dev : drm_device) (arg : drm_lock_arg) (file_priv : drm_file)
    (lbolt : Nat) (ret : Int) (waits : List Wait)
    (h : (drm_lock_loop file_priv arg.context lbolt waits ret dev.lock dev.stat_locks).1
      = none) :
    drm_lock_resume dev arg file_priv lbolt ret waits =
      ⟨Status.blocked, false,
        { dev with
          lock := (drm_lock_loop file_priv arg.context lbolt waits ret
            dev.lock dev.stat_locks).2.2.1
          stat_locks := (drm_lock_loop file_priv arg.context lbolt waits ret
            dev.lock dev.stat_locks).2.2.2.1 },
        file_priv,
        (drm_lock_loop file_priv arg.context lbolt waits ret dev.lock dev.stat_locks).2.2.2.2⟩
    := by
  simp only [drm_lock_resume]
  rw [h]

theorem drm_lock_passed (dev : drm_device) (arg : drm_lock_arg) (file_priv : drm_file)
    (lbolt : Nat) (waits : List Wait) (hk : arg.context ≠ DRM_KERNEL_CONTEXT)
    (hq : ¬ (dev.driver.DRIVER_DMA_QUEUE = true ∧ 2 ^ 31 ≤ arg.context)) :
    drm_lock dev arg file_priv lbolt waits =
      drm_lock_resume
        { dev with lock :=
          { dev.lock with user_waiters := u32_inc dev.lock.user_waiters } }
        arg { file_priv with lock_count := file_priv.lock_count + 1 } lbolt 0 waits := by
  simp only [drm_lock]
  rw [if_neg hk, if_neg hq]

theorem drm_lock_take_success_flags (lock_data : drm_lock_data) (context : Nat)
    (h : (drm_lock_take lock_data context).1 = 1) :
    _DRM_LOCK_IS_HELD (drm_lock_take_new lock_data context) ≠ 0 ∧
    _DRM_LOCKING_CONTEXT (drm_lock_take_new lock_data context) = context := by
  simp only [drm_lock_take] at h
  by_cases h1 : _DRM_LOCKING_CONTEXT lock_data.hw_lock = context ∧
      lock_data.hw_lock &&& _DRM_LOCK_HELD ≠ 0
  · rw [if_pos h1] at h
    exact absurd h (by simp)
  · rw [if_neg h1] at h
    by_cases h2 : _DRM_LOCKING_CONTEXT (drm_lock_take_new lock_data context) = context ∧
        drm_lock_take_new lock_data context &&& _DRM_LOCK_HELD ≠ 0
    · exact ⟨h2.2, h2.1⟩
    · rw [if_neg h2] at h
      exact absurd h (by simp)

/-- A call of `drm_lock` that comes round its loop and leaves it with the lock
(without a further wait) found the lock word free and leaves it held with
its own context as owner. -/
theorem drm_lock_resume_nil_got (dev : drm_device) (arg : drm_lock_arg)
    (file_priv : drm_file) (lbolt : Nat) (ret : Int)
    (h : (drm_lock_resume dev arg file_priv lbolt ret []).got_lock = true) :
    _DRM_LOCK_IS_HELD dev.lock.hw_lock = 0 ∧
    _DRM_LOCK_IS_HELD (drm_lock_resume dev arg file_priv lbolt ret []).dev.lock.hw_lock ≠ 0 ∧
    _DRM_LOCKING_CONTEXT (drm_lock_resume dev arg file_priv lbolt ret []).dev.lock.hw_lock =
      arg.context := by
  by_cases hheld : dev.lock.hw_lock &&& _DRM_LOCK_HELD ≠ 0
  · rw [drm_lock_resume_nil_held dev arg file_priv lbolt ret hheld] at h
    exact absurd h (by simp)
  · have hfree : _DRM_LOCK_IS_HELD dev.lock.hw_lock = 0 := by
      by_contra hh; exact hheld hh
    have ht := drm_lock_take_ret_free dev.lock arg.context hheld
    have hl := drm_lock_take_lock_data dev.lock arg.context
    have hiff := drm_lock_take_success_flags dev.lock arg.context
    by_cases hc : arg.context % 2 ^ 30 = arg.context
    · rw [if_pos hc] at ht
      have hloop : (drm_lock_loop file_priv arg.context lbolt [] ret dev.lock dev.stat_locks).1
          = some ret := by
        simp only [drm_lock_loop]
        rw [ht]
        rfl
      have hword : (drm_lock_loop file_priv arg.context lbolt [] ret dev.lock
          dev.stat_locks).2.2.1.hw_lock = drm_lock_take_new dev.lock arg.context := by
        simp only [drm_lock_loop]
        rw [ht, hl]
        rfl
      rw [drm_lock_resume_some dev arg file_priv lbolt ret [] ret hloop, drm_lock_tail_dev]
      have h1 := hiff ht
      refine ⟨hfree, ?_, ?_⟩
      · show _DRM_LOCK_IS_HELD (drm_lock_loop file_priv arg.context lbolt [] ret dev.lock
          dev.stat_locks).2.2.1.hw_lock ≠ 0
        rw [hword]; exact h1.1
      · show _DRM_LOCKING_CONTEXT (drm_lock_loop file_priv arg.context lbolt [] ret dev.lock
          dev.stat_locks).2.2.1.hw_lock = arg.context
        rw [hword]; exact h1.2
    · rw [if_neg hc] at ht
      have hloop : (drm_lock_loop file_priv arg.context lbolt [] ret dev.lock dev.stat_locks).1
          = none := by
        simp only [drm_lock_loop]
        rw [ht]
        rfl
      rw [drm_lock_resume_none dev arg file_priv lbolt ret [] hloop] at h
      exact absurd h (by simp)

/-- A new call of `drm_lock` that returns with the lock without waiting found
the lock word free and leaves it held with its own context as owner. -/
theorem drm_lock_nil_got (dev : drm_device) (arg : drm_lock_arg)
    (file_priv : drm_file) (lbolt : Nat)
    (h : (drm_lock dev arg file_priv lbolt []).got_lock = true) :
    _DRM_LOCK_IS_HELD dev.lock.hw_lock = 0 ∧
    _DRM_LOCK_IS_HELD (drm_lock dev arg file_priv lbolt []).dev.lock.hw_lock ≠ 0 ∧
    _DRM_LOCKING_CONTEXT (drm_lock dev arg file_priv lbolt []).dev.lock.hw_lock =
      arg.context := by
  by_cases hk : arg.context = DRM_KERNEL_CONTEXT
  · have hr : (drm_lock dev arg file_priv lbolt []).got_lock = false := by
      simp only [drm_lock]
      rw [if_pos hk]
    rw [hr] at h
    exact absurd h (by simp)
  · by_cases hq : dev.driver.DRIVER_DMA_QUEUE = true ∧ 2 ^ 31 ≤ arg.context
    · have hr : (drm_lock dev arg file_priv lbolt []).got_lock = false := by
        simp only [drm_lock]
        rw [if_neg hk, if_pos hq]
      rw [hr] at h
      exact absurd h (by simp)
    · rw [drm_lock_passed dev arg file_priv lbolt [] hk hq] at h ⊢
      exact drm_lock_resume_nil_got _ arg _ lbolt 0 h

theorem filter_ne_cons {α : Type} (p : α → Bool) (x : α) (l : List α) :
    l.filter p ≠ x :: l := by
  intro h
  have h1 := List.length_filter_le p l
  rw [h, List.length_cons] at h1
  omega

/-- A call of `drm_lock` that finds the lock held and does not wait further
leaves it held by the same owner. -/
theorem drm_lock_resume_nil_keeps_held (dev : drm_device) (arg : drm_lock_arg)
    (file_priv : drm_file) (lbolt : Nat) (ret : Int)
    (h : _DRM_LOCK_IS_HELD dev.lock.hw_lock ≠ 0) :
    _DRM_LOCK_IS_HELD (drm_lock_resume dev arg file_priv lbolt ret []).dev.lock.hw_lock ≠ 0 ∧
    _DRM_LOCKING_CONTEXT (drm_lock_resume dev arg file_priv lbolt ret []).dev.lock.hw_lock =
      _DRM_LOCKING_CONTEXT dev.lock.hw_lock := by
  rw [drm_lock_resume_nil_held dev arg file_priv lbolt ret h]
  constructor
  · show (dev.lock.hw_lock ||| _DRM_LOCK_CONT) &&& _DRM_LOCK_HELD ≠ 0
    rw [and_HELD_or_cont]; exact h
  · exact locking_context_or_cont _

theorem drm_lock_nil_keeps_held (dev : drm_device) (arg : drm_lock_arg)
    (file_priv : drm_file) (lbolt : Nat)
    (h : _DRM_LOCK_IS_HELD dev.lock.hw_lock ≠ 0) :
    _DRM_LOCK_IS_HELD (drm_lock dev arg file_priv lbolt []).dev.lock.hw_lock ≠ 0 ∧
    _DRM_LOCKING_CONTEXT (drm_lock dev arg file_priv lbolt []).dev.lock.hw_lock =
      _DRM_LOCKING_CONTEXT dev.lock.hw_lock := by
  by_cases hk : arg.context = DRM_KERNEL_CONTEXT
  · have hr : (drm_lock dev arg file_priv lbolt []).dev = dev := by
      simp only [drm_lock]
      rw [if_pos hk]
    rw [hr]
    exact ⟨h, rfl⟩
  · by_cases hq : dev.driver.DRIVER_DMA_QUEUE = true ∧ 2 ^ 31 ≤ arg.context
    · have hr : (drm_lock dev arg file_priv lbolt []).dev = dev := by
        simp only [drm_lock]
        rw [if_neg hk, if_pos hq]
      rw [hr]
      exact ⟨h, rfl⟩
    · rw [drm_lock_passed dev arg file_priv lbolt [] hk hq]
      exact drm_lock_resume_nil_keeps_held _ arg _ lbolt 0 h

theorem drm_lock_take_kernel_events (lock_data : drm_lock_data) :
    (drm_lock_take lock_data DRM_KERNEL_CONTEXT).2.2 = [] := by
  simp only [drm_lock_take]
  rw [if_neg (fun hh : DRM_KERNEL_CONTEXT ≠ DRM_KERNEL_CONTEXT => hh rfl)]
  split_ifs <;> rfl

theorem drm_idlelock_take_of_idle (lock_data : drm_lock_data)
    (h : lock_data.idle_has_lock ≠ 0) :
    drm_idlelock_take lock_data =
      ({ lock_data with kernel_waiters := u32_inc lock_data.kernel_waiters }, []) := by
  simp only [drm_idlelock_take]
  rw [if_neg h]

theorem drm_idlelock_take_of_held (lock_data : drm_lock_data)
    (h0 : lock_data.idle_has_lock = 0) (h : lock_data.hw_lock &&& _DRM_LOCK_HELD ≠ 0) :
    drm_idlelock_take lock_data =
      ({ lock_data with
          kernel_waiters := u32_inc lock_data.kernel_waiters
          hw_lock := lock_data.hw_lock ||| _DRM_LOCK_CONT }, []) := by
  have ht := drm_lock_take_ret_held
    { lock_data with kernel_waiters := u32_inc lock_data.kernel_waiters } DRM_KERNEL_CONTEXT h
  have hl := drm_lock_take_lock_data
    { lock_data with kernel_waiters := u32_inc lock_data.kernel_waiters } DRM_KERNEL_CONTEXT
  rw [drm_lock_take_new_held
    { lock_data with kernel_waiters := u32_inc lock_data.kernel_waiters }
    DRM_KERNEL_CONTEXT h] at hl
  have he := drm_lock_take_kernel_events
    { lock_data with kernel_waiters := u32_inc lock_data.kernel_waiters }
  simp only [drm_idlelock_take]
  rw [if_pos h0, ht, hl, he, if_neg (by decide)]

theorem drm_idlelock_take_of_free (lock_data : drm_lock_data)
    (h0 : lock_data.idle_has_lock = 0) (h : ¬ lock_data.hw_lock &&& _DRM_LOCK_HELD ≠ 0) :
    drm_idlelock_take lock_data =
      ({ lock_data with
          kernel_waiters := u32_inc lock_data.kernel_waiters
          hw_lock := drm_lock_take_new
            { lock_data with kernel_waiters := u32_inc lock_data.kernel_waiters }
            DRM_KERNEL_CONTEXT
          idle_has_lock := 1 }, []) := by
  have ht := drm_lock_take_ret_free
    { lock_data with kernel_waiters := u32_inc lock_data.kernel_waiters } DRM_KERNEL_CONTEXT h
  rw [if_pos (by decide)] at ht
  have hl := drm_lock_take_lock_data
    { lock_data with kernel_waiters := u32_inc lock_data.kernel_waiters } DRM_KERNEL_CONTEXT
  have he := drm_lock_take_kernel_events
    { lock_data with kernel_waiters := u32_inc lock_data.kernel_waiters }
  simp only [drm_idlelock_take]
  rw [if_pos h0, ht, hl, he, if_pos rfl]

theorem take_new_kernel_free (lock_data : drm_lock_data)
    (h : ¬ lock_data.hw_lock &&& _DRM_LOCK_HELD ≠ 0) :
    _DRM_LOCK_IS_HELD (drm_lock_take_new lock_data DRM_KERNEL_CONTEXT) ≠ 0 ∧
    _DRM_LOCKING_CONTEXT (drm_lock_take_new lock_data DRM_KERNEL_CONTEXT) =
      DRM_KERNEL_CONTEXT := by
  rw [drm_lock_take_new_free lock_data _ h]
  constructor
  · show (DRM_KERNEL_CONTEXT ||| _DRM_LOCK_HELD ||| _) &&& _DRM_LOCK_HELD ≠ 0
    rw [held_ne_zero_iff, testBit_new_31]
  · rw [locking_context_new]
    · rfl
    · split_ifs
      · exact Or.inl rfl
      · exact Or.inr rfl

theorem drm_idlelock_release_parks (lock_data : drm_lock_data)
    (h1 : u32_dec lock_data.kernel_waiters = 0) (h2 : lock_data.idle_has_lock ≠ 0) :
    drm_idlelock_release lock_data =
      ({ lock_data with
          kernel_waiters := u32_dec lock_data.kernel_waiters
          hw_lock := DRM_KERNEL_CONTEXT
          idle_has_lock := 0 }, [Event.cv_broadcast]) := by
  simp only [drm_idlelock_release]
  rw [if_pos h1, if_pos h2]

theorem drm_idlelock_release_counts (lock_data : drm_lock_data)
    (h : u32_dec lock_data.kernel_waiters ≠ 0 ∨ lock_data.idle_has_lock = 0) :
    drm_idlelock_release lock_data =
      ({ lock_data with kernel_waiters := u32_dec lock_data.kernel_waiters }, []) := by
  simp only [drm_idlelock_release]
  by_cases h1 : u32_dec lock_data.kernel_waiters = 0
  · have h2 : lock_data.idle_has_lock = 0 := h.resolve_left (fun hh => hh h1)
    rw [if_pos h1, if_neg (fun hh => hh h2)]
  · rw [if_neg h1]

/-! ## The idle invariant along a run -/

theorem idle_invariant_of_frame (l l1 : drm_lock_data) (n : Nat)
    (hk : l1.kernel_waiters = l.kernel_waiters) (hi : l1.idle_has_lock = l.idle_has_lock)
    (hw : _DRM_LOCK_IS_HELD l.hw_lock ≠ 0 →
      _DRM_LOCK_IS_HELD l1.hw_lock ≠ 0 ∧
      _DRM_LOCKING_CONTEXT l1.hw_lock = _DRM_LOCKING_CONTEXT l.hw_lock)
    (h : idle_invariant l n) : idle_invariant l1 n := by
  refine ⟨hk.trans h.1, fun hidle => ?_⟩
  rw [hi] at hidle
  obtain ⟨a, b, c⟩ := h.2 hidle
  exact ⟨a, (hw b).1, (hw b).2.trans c⟩

theorem drm_lock_loop_nil_frame (file_priv : drm_file) (context lbolt : Nat) (ret : Int)
    (lock : drm_lock_data) (stat : Nat) :
    (drm_lock_loop file_priv context lbolt [] ret lock stat).2.2.1.kernel_waiters =
      lock.kernel_waiters ∧
    (drm_lock_loop file_priv context lbolt [] ret lock stat).2.2.1.idle_has_lock =
      lock.idle_has_lock := by
  simp only [drm_lock_loop]
  split_ifs <;> simp [drm_lock_take_lock_data]

theorem drm_lock_resume_nil_frame (dev : drm_device) (arg : drm_lock_arg)
    (file_priv : drm_file) (lbolt : Nat) (ret : Int) :
    (drm_lock_resume dev arg file_priv lbolt ret []).dev.lock.kernel_waiters =
      dev.lock.kernel_waiters ∧
    (drm_lock_resume dev arg file_priv lbolt ret []).dev.lock.idle_has_lock =
      dev.lock.idle_has_lock := by
  have hL := drm_lock_loop_nil_frame file_priv arg.context lbolt ret dev.lock dev.stat_locks
  cases hr : (drm_lock_loop file_priv arg.context lbolt [] ret dev.lock dev.stat_locks).1 with
  | none =>
    rw [drm_lock_resume_none dev arg file_priv lbolt ret [] hr]
    exact hL
  | some r =>
    rw [drm_lock_resume_some dev arg file_priv lbolt ret [] r hr, drm_lock_tail_dev]
    exact hL

theorem drm_lock_nil_frame (dev : drm_device) (arg : drm_lock_arg)
    (file_priv : drm_file) (lbolt : Nat) :
    (drm_lock dev arg file_priv lbolt []).dev.lock.kernel_waiters =
      dev.lock.kernel_waiters ∧
    (drm_lock dev arg file_priv lbolt []).dev.lock.idle_has_lock =
      dev.lock.idle_has_lock := by
  by_cases hk : arg.context = DRM_KERNEL_CONTEXT
  · have hr : (drm_lock dev arg file_priv lbolt []).dev = dev := by
      simp only [drm_lock]
      rw [if_pos hk]
    rw [hr]
    exact ⟨rfl, rfl⟩
  · by_cases hq : dev.driver.DRIVER_DMA_QUEUE = true ∧ 2 ^ 31 ≤ arg.context
    · have hr : (drm_lock dev arg file_priv lbolt []).dev = dev := by
        simp only [drm_lock]
        rw [if_neg hk, if_pos hq]
      rw [hr]
      exact ⟨rfl, rfl⟩
    · rw [drm_lock_passed dev arg file_priv lbolt [] hk hq]
      exact drm_lock_resume_nil_frame _ arg _ lbolt 0

theorem idle_invariant_free (l : drm_lock_data) (context n : Nat)
    (h : idle_invariant l n) : idle_invariant (drm_lock_free l context).2.1 n := by
  by_cases hk : l.kernel_waiters = 0
  · have hidle : ¬ l.idle_has_lock ≠ 0 := by
      intro hi
      exact (h.2 hi).1 (h.1.symm.trans hk)
    by_cases hf : _DRM_LOCK_IS_HELD l.hw_lock ≠ 0 ∧ _DRM_LOCKING_CONTEXT l.hw_lock ≠ context
    · rw [drm_lock_free_foreign l context hk hf]
      exact ⟨h.1, fun hi => absurd hi hidle⟩
    · rw [drm_lock_free_released l context hk hf]
      exact ⟨h.1, fun hi => absurd hi hidle⟩
  · rw [drm_lock_free_transfer l context hk]
    have h1 : _DRM_LOCK_IS_HELD (0 ||| _DRM_LOCK_HELD) ≠ 0 := by decide
    have h2 : _DRM_LOCKING_CONTEXT (0 ||| _DRM_LOCK_HELD) = DRM_KERNEL_CONTEXT := by decide
    exact ⟨h.1, fun _ => ⟨fun hn => hk (h.1.trans hn), h1, h2⟩⟩

theorem idle_invariant_unlock (dev : drm_device) (arg : drm_lock_arg) (n : Nat)
    (h : idle_invariant dev.lock n) : idle_invariant (drm_unlock dev arg).2.1.lock n := by
  simp only [drm_unlock]
  split_ifs
  · exact h
  · exact h
  · exact idle_invariant_free dev.lock arg.context n h

theorem idle_invariant_take (l : drm_lock_data) (n : Nat) (h : idle_invariant l n)
    (hfit : l.kernel_waiters + 1 < 2 ^ 32) :
    idle_invariant (drm_idlelock_take l).1 (n + 1) := by
  have hinc : u32_inc l.kernel_waiters = n + 1 := by
    unfold u32_inc
    rw [Nat.mod_eq_of_lt hfit, h.1]
  by_cases h0 : l.idle_has_lock = 0
  · by_cases hh : l.hw_lock &&& _DRM_LOCK_HELD ≠ 0
    · rw [drm_idlelock_take_of_held l h0 hh]
      exact ⟨hinc, fun hi => absurd h0 hi⟩
    · rw [drm_idlelock_take_of_free l h0 hh]
      have hw := take_new_kernel_free
        { l with kernel_waiters := u32_inc l.kernel_waiters } hh
      exact ⟨hinc, fun _ => ⟨Nat.succ_ne_zero n, hw.1, hw.2⟩⟩
  · rw [drm_idlelock_take_of_idle l h0]
    obtain ⟨_, b, c⟩ := h.2 h0
    exact ⟨hinc, fun _ => ⟨Nat.succ_ne_zero n, b, c⟩⟩

theorem idle_invariant_release (l : drm_lock_data) (n : Nat) (h : idle_invariant l n)
    (hn : 0 < n) : idle_invariant (drm_idlelock_release l).1 (n - 1) := by
  have hdec : u32_dec l.kernel_waiters = n - 1 := by
    unfold u32_dec
    rw [h.1, if_neg (Nat.pos_iff_ne_zero.mp hn)]
  by_cases hp : u32_dec l.kernel_waiters = 0 ∧ l.idle_has_lock ≠ 0
  · rw [drm_idlelock_release_parks l hp.1 hp.2]
    exact ⟨hdec, fun hi => absurd rfl hi⟩
  · have hq : u32_dec l.kernel_waiters ≠ 0 ∨ l.idle_has_lock = 0 := by
      by_cases h1 : u32_dec l.kernel_waiters = 0
      · right
        by_contra h2
        exact hp ⟨h1, h2⟩
      · exact Or.inl h1
    rw [drm_idlelock_release_counts l hq]
    refine ⟨hdec, fun hi => ?_⟩
    obtain ⟨_, b, c⟩ := h.2 hi
    refine ⟨?_, b, c⟩
    rcases hq with h1 | h1
    · rw [hdec] at h1; exact h1
    · exact absurd h1 hi

theorem idle_invariant_after_lock (s : System) (f : Nat) (arg : drm_lock_arg)
    (r : LockResult) (waiting : List (Nat × drm_lock_arg)) (n : Nat)
    (h : idle_invariant r.dev.lock n) :
    idle_invariant (s.after_lock f arg r waiting).dev.lock n := h


/-- One step of a run keeps the idle invariant, the count of outstanding idle
acquisitions following the step. -/
theorem idle_invariant_op (s s1 : System) (o : Op) (os : List Op) (n : Nat)
    (h : idle_invariant s.dev.lock n) (hm : idle_matched n (o :: os)) (hfit : s.fits o)
    (hstep : s.op o = some s1) :
    ∃ m : Nat, idle_invariant s1.dev.lock m ∧ idle_matched m os := by
  cases o with
  | free context =>
    have hs1 := (Option.some.inj hstep).symm
    rw [hs1]
    exact ⟨n, idle_invariant_free s.dev.lock context n h, hm⟩
  | call c =>
    cases c with
    | lock f arg lbolt =>
      have hs1 := (Option.some.inj hstep).symm
      rw [hs1]
      refine ⟨n, ?_, hm⟩
      exact idle_invariant_of_frame s.dev.lock _ n
        (drm_lock_nil_frame s.dev arg _ lbolt).1 (drm_lock_nil_frame s.dev arg _ lbolt).2
        (drm_lock_nil_keeps_held s.dev arg _ lbolt) h
    | wake f arg lbolt ret =>
      have hstep1 : s.step (Call.wake f arg lbolt ret) = some s1 := hstep
      simp only [System.step] at hstep1
      by_cases hw : (f, arg) ∈ s.waiting ∧ ret ≠ 0
      · rw [if_pos hw] at hstep1
        rw [← Option.some.inj hstep1]
        refine ⟨n, ?_, hm⟩
        exact idle_invariant_of_frame s.dev.lock _ n
          (drm_lock_resume_nil_frame s.dev arg _ lbolt ret).1
          (drm_lock_resume_nil_frame s.dev arg _ lbolt ret).2
          (drm_lock_resume_nil_keeps_held s.dev arg _ lbolt ret) h
      · rw [if_neg hw] at hstep1
        exact absurd hstep1 (by simp)
    | signal f arg =>
      have hstep1 : s.step (Call.signal f arg) = some s1 := hstep
      simp only [System.step] at hstep1
      by_cases hw : (f, arg) ∈ s.waiting
      · rw [if_pos hw] at hstep1
        rw [← Option.some.inj hstep1]
        refine ⟨n, ?_, hm⟩
        show idle_invariant
          (drm_lock_tail s.dev arg ⟨f, s.lock_count f⟩ (-EINTR) false []).dev.lock n
        rw [drm_lock_tail_dev]
        exact idle_invariant_of_frame s.dev.lock _ n rfl rfl (fun hh => ⟨hh, rfl⟩) h
      · rw [if_neg hw] at hstep1
        exact absurd hstep1 (by simp)
    | unlock f arg =>
      have hs1 := (Option.some.inj hstep).symm
      rw [hs1]
      exact ⟨n, idle_invariant_unlock s.dev arg n h, hm⟩
    | idlelock_take =>
      have hs1 := (Option.some.inj hstep).symm
      rw [hs1]
      exact ⟨n + 1, idle_invariant_take s.dev.lock n h hfit, hm⟩
    | idlelock_release =>
      have hs1 := (Option.some.inj hstep).symm
      rw [hs1]
      exact ⟨n - 1, idle_invariant_release s.dev.lock n h hm.1, hm.2⟩

/-- A run with matched idle releases and without counter overflow keeps the
idle invariant. -/
theorem idle_invariant_run (os : List Op) :
    ∀ (s s1 : System) (n : Nat), idle_invariant s.dev.lock n → idle_matched n os →
      s.no_overflow os → s.run_ops os = some s1 →
      ∃ m : Nat, idle_invariant s1.dev.lock m := by
  induction os with
  | nil =>
    intro s s1 n h _ _ hrun
    rw [← Option.some.inj hrun]
    exact ⟨n, h⟩
  | cons o os ih =>
    intro s s1 n h hm hno hrun
    simp only [System.run_ops] at hrun
    cases hstep : s.op o with
    | none =>
      rw [hstep] at hrun
      exact absurd hrun (by simp)
    | some s2 =>
      rw [hstep] at hrun
      have hno2 : s2.no_overflow os := by
        have h2 := hno.2
        rw [hstep] at h2
        exact h2
      obtain ⟨m, hinv, hm2⟩ := idle_invariant_op s s2 o os n h hm hno.1 hstep
      exact ih s2 s1 m hinv hm2 hno2 hrun

/-! ## A woken call of `drm_lock` -/

theorem drm_lock_loop_nil_free (file_priv : drm_file) (context lbolt : Nat) (ret : Int)
    (lock : drm_lock_data) (stat : Nat) (h : ¬ lock.hw_lock &&& _DRM_LOCK_HELD ≠ 0)
    (hc : context % 2 ^ 30 = context) :
    drm_lock_loop file_priv context lbolt [] ret lock stat =
      (some ret, true,
        { lock with
          hw_lock := drm_lock_take_new lock context
          file_priv := some file_priv.handle
          lock_time := lbolt }, stat + 1, (drm_lock_take lock context).2.2) := by
  have ht := drm_lock_take_ret_free lock context h
  rw [if_pos hc] at ht
  simp only [drm_lock_loop]
  rw [ht, drm_lock_take_lock_data, if_pos (by decide)]

theorem drm_lock_tail_status_eq (dev dev1 : drm_device) (arg : drm_lock_arg)
    (file_priv : drm_file) (ret : Int) (g : Bool) (ev ev1 : List Event)
    (hd : dev1.driver = dev.driver) (hl : dev1.last_context = dev.last_context) :
    (drm_lock_tail dev1 arg file_priv ret g ev1).status =
      (drm_lock_tail dev arg file_priv ret g ev).status := by
  simp only [drm_lock_tail]
  rw [hd, hl]
  split_ifs <;> rfl

theorem drm_lock_loop_cons_held (file_priv : drm_file) (context lbolt : Nat) (w : Wait)
    (ws : List Wait) (ret : Int) (lock : drm_lock_data) (stat : Nat)
    (h : lock.hw_lock &&& _DRM_LOCK_HELD ≠ 0) (hw : w.ret ≠ 0) :
    drm_lock_loop file_priv context lbolt (w :: ws) ret lock stat =
      ((drm_lock_loop file_priv context lbolt ws w.ret
          (w.env { lock with hw_lock := lock.hw_lock ||| _DRM_LOCK_CONT }) stat).1,
        (drm_lock_loop file_priv context lbolt ws w.ret
          (w.env { lock with hw_lock := lock.hw_lock ||| _DRM_LOCK_CONT }) stat).2.1,
        (drm_lock_loop file_priv context lbolt ws w.ret
          (w.env { lock with hw_lock := lock.hw_lock ||| _DRM_LOCK_CONT }) stat).2.2.1,
        (drm_lock_loop file_priv context lbolt ws w.ret
          (w.env { lock with hw_lock := lock.hw_lock ||| _DRM_LOCK_CONT }) stat).2.2.2.1,
        (drm_lock_take lock context).2.2 ++
        (drm_lock_loop file_priv context lbolt ws w.ret
          (w.env { lock with hw_lock := lock.hw_lock ||| _DRM_LOCK_CONT }) stat).2.2.2.2) := by
  have ht := drm_lock_take_ret_held lock context h
  have hl := drm_lock_take_lock_data lock context
  rw [drm_lock_take_new_held lock context h] at hl
  simp only [drm_lock_loop]
  rw [ht, hl, if_neg (fun hh : (0 : Nat) ≠ 0 => hh rfl), if_neg hw]

/-- A call of `drm_lock` that comes round its loop, finds the lock held and
is woken from its wait goes on as a call that comes round the loop in the
state the other threads have left. -/
theorem drm_lock_resume_woken (dev : drm_device) (arg : drm_lock_arg) (file_priv : drm_file)
    (lbolt : Nat) (ret : Int) (w : Wait) (hw : w.ret ≠ 0)
    (h : dev.lock.hw_lock &&& _DRM_LOCK_HELD ≠ 0) :
    (drm_lock_resume dev arg file_priv lbolt ret [w]).status =
      (drm_lock_resume
        { dev with lock :=
          (w.env { dev.lock with hw_lock := dev.lock.hw_lock ||| _DRM_LOCK_CONT }) }
        arg file_priv lbolt w.ret []).status ∧
    (drm_lock_resume dev arg file_priv lbolt ret [w]).got_lock =
      (drm_lock_resume
        { dev with lock :=
          (w.env { dev.lock with hw_lock := dev.lock.hw_lock ||| _DRM_LOCK_CONT }) }
        arg file_priv lbolt w.ret []).got_lock ∧
    (drm_lock_resume dev arg file_priv lbolt ret [w]).dev =
      (drm_lock_resume
        { dev with lock :=
          (w.env { dev.lock with hw_lock := dev.lock.hw_lock ||| _DRM_LOCK_CONT }) }
        arg file_priv lbolt w.ret []).dev := by
  have hloop := drm_lock_loop_cons_held file_priv arg.context lbolt w [] ret dev.lock
    dev.stat_locks h hw
  simp only [drm_lock_resume]
  rw [hloop]
  cases (drm_lock_loop file_priv arg.context lbolt [] w.ret
      (w.env { dev.lock with hw_lock := dev.lock.hw_lock ||| _DRM_LOCK_CONT })
      dev.stat_locks).1 with
  | none => exact ⟨rfl, rfl, rfl⟩
  | some r =>
    refine ⟨drm_lock_tail_status_eq _ _ _ _ _ _ _ _ rfl rfl, ?_, ?_⟩
    · rw [drm_lock_tail_got_lock, drm_lock_tail_got_lock]
    · rw [drm_lock_tail_dev, drm_lock_tail_dev]

/-- A call of `drm_lock` that comes round its loop and finds the lock free,
with a context that fits the owner field, leaves the loop with the lock: the
word is held with its context as owner, it is the recorded holder, and when
the local `ret` is not zero the call returns `ret`. -/
theorem drm_lock_resume_nil_free (dev : drm_device) (arg : drm_lock_arg)
    (file_priv : drm_file) (lbolt : Nat) (ret : Int)
    (hfree : ¬ dev.lock.hw_lock &&& _DRM_LOCK_HELD ≠ 0)
    (hc : arg.context % 2 ^ 30 = arg.context) :
    (drm_lock_resume dev arg file_priv lbolt ret []).got_lock = true ∧
    (drm_lock_resume dev arg file_priv lbolt ret []).dev.lock.file_priv =
      some file_priv.handle ∧
    _DRM_LOCK_IS_HELD (drm_lock_resume dev arg file_priv lbolt ret []).dev.lock.hw_lock ≠ 0 ∧
    _DRM_LOCKING_CONTEXT (drm_lock_resume dev arg file_priv lbolt ret []).dev.lock.hw_lock =
      arg.context ∧
    (ret ≠ 0 →
      (drm_lock_resume dev arg file_priv lbolt ret []).status = Status.returned ret) := by
  have hloop := drm_lock_loop_nil_free file_priv arg.context lbolt ret dev.lock
    dev.stat_locks hfree hc
  have hflags := drm_lock_take_success_flags dev.lock arg.context
    (by rw [drm_lock_take_ret_free dev.lock arg.context hfree, if_pos hc])
  rw [drm_lock_resume_some dev arg file_priv lbolt ret [] ret (by rw [hloop]),
    drm_lock_tail_got_lock, drm_lock_tail_dev, hloop]
  exact ⟨rfl, rfl, hflags.1, hflags.2,
    fun hne => drm_lock_tail_status_of_ne _ _ _ _ _ _ hne⟩

/-- An acquisition is only ever made from a free lock word: a step that adds
an acquisition found the lock word free (so nobody observed the lock as its
own), and the acquiring file then observes the lock word as held with its
context as owner. -/
theorem System.acquisition_from_free (s s1 : System) (c : Call) (file context : Nat)
    (hstep : s.step c = some s1) (hhold : s1.holding = (file, context) :: s.holding) :
    _DRM_LOCK_IS_HELD s.dev.lock.hw_lock = 0 ∧
    (∀ file0 context0 : Nat, ¬ s.observes file0 context0) ∧
    s1.observes file context := by
  have key : ∀ (f : Nat) (arg : drm_lock_arg) (r : LockResult)
      (waiting : List (Nat × drm_lock_arg)),
      (r.got_lock = true → _DRM_LOCK_IS_HELD s.dev.lock.hw_lock = 0 ∧
        _DRM_LOCK_IS_HELD r.dev.lock.hw_lock ≠ 0 ∧
        _DRM_LOCKING_CONTEXT r.dev.lock.hw_lock = arg.context) →
      s1 = s.after_lock f arg r waiting →
      _DRM_LOCK_IS_HELD s.dev.lock.hw_lock = 0 ∧
      (∀ file0 context0 : Nat, ¬ s.observes file0 context0) ∧
      s1.observes file context := by
    intro f arg r waiting hgot hs1
    rw [hs1] at hhold ⊢
    by_cases hg : r.got_lock = true
    · have hh : (f, arg.context) :: s.holding = (file, context) :: s.holding := by
        have e : (s.after_lock f arg r waiting).holding = (f, arg.context) :: s.holding := by
          simp only [System.after_lock]
          rw [if_pos hg]
        exact e.symm.trans hhold
      have hfc : (f, arg.context) = (file, context) := (List.cons.inj hh).1
      have hf : f = file := (Prod.mk.inj hfc).1
      have hc : arg.context = context := (Prod.mk.inj hfc).2
      obtain ⟨g1, g2, g3⟩ := hgot hg
      refine ⟨g1, fun file0 context0 ho => ho.2.1 g1, ?_, g2, g3.trans hc⟩
      rw [hhold]
      exact List.mem_cons_self _ _
    · have e : (s.after_lock f arg r waiting).holding = s.holding := by
        simp only [System.after_lock]
        rw [if_neg hg]
      rw [e] at hhold
      exact absurd hhold.symm (List.cons_ne_self _ _)
  cases c with
  | lock f arg lbolt =>
    have hs1 : s1 = s.after_lock f arg
        (drm_lock s.dev arg ⟨f, s.lock_count f⟩ lbolt []) s.waiting :=
      (Option.some.inj hstep).symm
    exact key f arg _ _ (drm_lock_nil_got s.dev arg _ lbolt) hs1
  | wake f arg lbolt ret =>
    simp only [System.step] at hstep
    by_cases hw : (f, arg) ∈ s.waiting ∧ ret ≠ 0
    · rw [if_pos hw] at hstep
      exact key f arg _ _ (drm_lock_resume_nil_got s.dev arg _ lbolt ret)
        (Option.some.inj hstep).symm
    · rw [if_neg hw] at hstep
      exact absurd hstep (by simp)
  | signal f arg =>
    simp only [System.step] at hstep
    by_cases hw : (f, arg) ∈ s.waiting
    · rw [if_pos hw] at hstep
      refine key f arg _ _ ?_ (Option.some.inj hstep).symm
      intro hg
      rw [drm_lock_tail_got_lock] at hg
      exact absurd hg (by simp)
    · rw [if_neg hw] at hstep
      exact absurd hstep (by simp)
  | unlock f arg =>
    have hs1 := (Option.some.inj hstep).symm
    rw [hs1] at hhold
    exfalso
    by_cases hk : arg.context = DRM_KERNEL_CONTEXT
    · have e : s.holding = (file, context) :: s.holding := by
        have e1 := hhold
        simp only [] at e1
        rw [if_pos hk] at e1
        exact e1
      exact absurd e.symm (List.cons_ne_self _ _)
    · have e1 := hhold
      simp only [] at e1
      rw [if_neg hk] at e1
      exact filter_ne_cons _ _ _ e1
  | idlelock_take =>
    have hs1 := (Option.some.inj hstep).symm
    rw [hs1] at hhold
    exact absurd hhold.symm (List.cons_ne_self _ _)
  | idlelock_release =>
    have hs1 := (Option.some.inj hstep).symm
    rw [hs1] at hhold
    exact absurd hhold.symm (List.cons_ne_self _ _)


/-! ## The claims -/

/-- C1 as stated fails: a call of `drm_lock` with the kernel context is
rejected with `-EINVAL` and leaves the device as it was, but the caller's
`lock_count` has gone from 0 to 1. -/
theorem drm_lock_kernel_context_no_mutation_counterexample :
    ¬ ((drm_lock ⟨⟨false, false, none, false, false⟩, ⟨0, none, 0, 0, 0, 0⟩, 0, 0, 0⟩
          ⟨DRM_KERNEL_CONTEXT, 0⟩ ⟨7, 0⟩ 0 []).status = Status.returned (-EINVAL) ∧
      (drm_lock ⟨⟨false, false, none, false, false⟩, ⟨0, none, 0, 0, 0, 0⟩, 0, 0, 0⟩
          ⟨DRM_KERNEL_CONTEXT, 0⟩ ⟨7, 0⟩ 0 []).dev =
        ⟨⟨false, false, none, false, false⟩, ⟨0, none, 0, 0, 0, 0⟩, 0, 0, 0⟩ ∧
      (drm_lock ⟨⟨false, false, none, false, false⟩, ⟨0, none, 0, 0, 0, 0⟩, 0, 0, 0⟩
          ⟨DRM_KERNEL_CONTEXT, 0⟩ ⟨7, 0⟩ 0 []).file_priv.lock_count =
        (⟨7, 0⟩ : drm_file).lock_count) := by
  decide

/-- C1, amended: for every device state, caller, flags and waits, `drm_lock`
with the kernel context returns `-EINVAL` after logging an error and leaves the
whole device as it was (lock word, both waiter counters, `idle_has_lock`,
recorded holder, lock time, statistics); of the caller only `lock_count`
changes, which is one higher. -/
theorem drm_lock_kernel_context_rejected (dev : drm_device) (flags : Nat)
    (file_priv : drm_file) (lbolt : Nat) (waits : List Wait) :
    (drm_lock dev ⟨DRM_KERNEL_CONTEXT, flags⟩ file_priv lbolt waits).status =
      Status.returned (-EINVAL) ∧
    (drm_lock dev ⟨DRM_KERNEL_CONTEXT, flags⟩ file_priv lbolt waits).dev = dev ∧
    (drm_lock dev ⟨DRM_KERNEL_CONTEXT, flags⟩ file_priv lbolt waits).file_priv =
      { file_priv with lock_count := file_priv.lock_count + 1 } ∧
    (drm_lock dev ⟨DRM_KERNEL_CONTEXT, flags⟩ file_priv lbolt waits).got_lock = false ∧
    (drm_lock dev ⟨DRM_KERNEL_CONTEXT, flags⟩ file_priv lbolt waits).events =
      [Event.DRM_ERROR] := by
  exact ⟨rfl, rfl, rfl, rfl, rfl⟩

/-- C3: `drm_lock_take` on a held lock returns 0 for every context (the owner
included) and leaves the old lock word with the contended bit set; nothing
else of the lock data changes, and the held bit and the owner field are as
before. -/
theorem drm_lock_take_on_held (lock_data : drm_lock_data) (context : Nat)
    (h : _DRM_LOCK_IS_HELD lock_data.hw_lock ≠ 0) :
    (drm_lock_take lock_data context).1 = 0 ∧
    (drm_lock_take lock_data context).2.1 =
      { lock_data with hw_lock := lock_data.hw_lock ||| _DRM_LOCK_CONT } ∧
    _DRM_LOCK_IS_HELD (drm_lock_take lock_data context).2.1.hw_lock =
      _DRM_LOCK_IS_HELD lock_data.hw_lock ∧
    _DRM_LOCKING_CONTEXT (drm_lock_take lock_data context).2.1.hw_lock =
      _DRM_LOCKING_CONTEXT lock_data.hw_lock ∧
    _DRM_LOCK_IS_CONT (drm_lock_take lock_data context).2.1.hw_lock ≠ 0 := by
  have h1 : lock_data.hw_lock &&& _DRM_LOCK_HELD ≠ 0 := h
  rw [drm_lock_take_lock_data, drm_lock_take_new_held lock_data context h1]
  refine ⟨drm_lock_take_ret_held lock_data context h1, rfl, ?_, ?_, ?_⟩
  · exact and_HELD_or_cont _
  · exact locking_context_or_cont _
  · show (lock_data.hw_lock ||| _DRM_LOCK_CONT) &&& _DRM_LOCK_CONT ≠ 0
    rw [cont_ne_zero_iff, testBit_or_cont_30]

/-- Witness of C3: context 5 tries to take the lock context 5 holds. -/
theorem drm_lock_take_on_held_witness :
    _DRM_LOCK_IS_HELD (⟨0x80000005, some 1, 0, 0, 1, 0⟩ : drm_lock_data).hw_lock ≠ 0 ∧
    (drm_lock_take ⟨0x80000005, some 1, 0, 0, 1, 0⟩ 5).1 = 0 ∧
    (drm_lock_take ⟨0x80000005, some 1, 0, 0, 1, 0⟩ 5).2.1.hw_lock = 0xC0000005 :=
  ⟨by decide,
    (drm_lock_take_on_held ⟨0x80000005, some 1, 0, 0, 1, 0⟩ 5 (by decide)).1,
    by decide⟩

/-- C4: `drm_lock_take` on a free lock with a context that fits the owner
field returns 1 and leaves the lock word held with that context as owner;
the contended bit is set exactly when the sum of the two waiter counters, as
the code computes it (unsigned, 32 bits), is above 1, which is the plain sum
whenever that fits 32 bits. Nothing else of the lock data changes. -/
theorem drm_lock_take_on_free (lock_data : drm_lock_data) (context : Nat)
    (h : _DRM_LOCK_IS_HELD lock_data.hw_lock = 0) (hc : context < 2 ^ 30) :
    (drm_lock_take lock_data context).1 = 1 ∧
    (drm_lock_take lock_data context).2.1 =
      { lock_data with hw_lock := context ||| _DRM_LOCK_HELD |||
        (if (lock_data.user_waiters + lock_data.kernel_waiters) % 2 ^ 32 > 1
          then _DRM_LOCK_CONT else 0) } ∧
    _DRM_LOCK_IS_HELD (drm_lock_take lock_data context).2.1.hw_lock ≠ 0 ∧
    _DRM_LOCKING_CONTEXT (drm_lock_take lock_data context).2.1.hw_lock = context ∧
    (_DRM_LOCK_IS_CONT (drm_lock_take lock_data context).2.1.hw_lock ≠ 0 ↔
      (lock_data.user_waiters + lock_data.kernel_waiters) % 2 ^ 32 > 1) ∧
    (lock_data.user_waiters + lock_data.kernel_waiters < 2 ^ 32 →
      (_DRM_LOCK_IS_CONT (drm_lock_take lock_data context).2.1.hw_lock ≠ 0 ↔
        lock_data.user_waiters + lock_data.kernel_waiters > 1)) := by
  have h1 : ¬ lock_data.hw_lock &&& _DRM_LOCK_HELD ≠ 0 := fun hh => hh h
  have hmod : context % 2 ^ 30 = context := Nat.mod_eq_of_lt hc
  have hcont : _DRM_LOCK_IS_CONT (context ||| _DRM_LOCK_HELD |||
      (if (lock_data.user_waiters + lock_data.kernel_waiters) % 2 ^ 32 > 1
        then _DRM_LOCK_CONT else 0)) ≠ 0 ↔
      (lock_data.user_waiters + lock_data.kernel_waiters) % 2 ^ 32 > 1 := by
    show (context ||| _DRM_LOCK_HELD ||| _) &&& _DRM_LOCK_CONT ≠ 0 ↔ _
    rw [cont_ne_zero_iff, testBit_new_30 _ _ hc]
    by_cases hs : (lock_data.user_waiters + lock_data.kernel_waiters) % 2 ^ 32 > 1
    · rw [if_pos hs, CONT_eq, Nat.testBit_two_pow_self]
      exact ⟨fun _ => hs, fun _ => rfl⟩
    · rw [if_neg hs, Nat.zero_testBit]
      exact ⟨fun hh => absurd hh (by simp), fun hh => absurd hh hs⟩
  rw [drm_lock_take_lock_data, drm_lock_take_new_free lock_data context h1,
    drm_lock_take_ret_free lock_data context h1, if_pos hmod]
  refine ⟨rfl, rfl, ?_, ?_, hcont, ?_⟩
  · show (context ||| _DRM_LOCK_HELD ||| _) &&& _DRM_LOCK_HELD ≠ 0
    rw [held_ne_zero_iff, testBit_new_31]
  · show _DRM_LOCKING_CONTEXT (context ||| _DRM_LOCK_HELD ||| _) = context
    rw [locking_context_new, hmod]
    split_ifs
    · exact Or.inl rfl
    · exact Or.inr rfl
  · intro hlt
    have hm := Nat.mod_eq_of_lt hlt
    exact hcont.trans (by rw [hm])

/-- Witness of C4: context 5 is the sole acquirer of a free lock. -/
theorem drm_lock_take_on_free_witness :
    _DRM_LOCK_IS_HELD (⟨3, none, 0, 0, 1, 0⟩ : drm_lock_data).hw_lock = 0 ∧ 5 < 2 ^ 30 ∧
    (drm_lock_take ⟨3, none, 0, 0, 1, 0⟩ 5).1 = 1 ∧
    (drm_lock_take ⟨3, none, 0, 0, 1, 0⟩ 5).2.1.hw_lock = 0x80000005 :=
  ⟨by decide, by decide,
    (drm_lock_take_on_free ⟨3, none, 0, 0, 1, 0⟩ 5 (by decide) (by decide)).1,
    by decide⟩

/-- C5 as stated fails: context 5 tries to take the lock it already holds;
the word written is held with owner 5, yet `drm_lock_take` returns 0. -/
theorem drm_lock_take_success_iff_new_counterexample :
    ¬ ((drm_lock_take ⟨0x80000005, some 1, 0, 0, 1, 0⟩ 5).1 = 1 ↔
      (_DRM_LOCK_IS_HELD (drm_lock_take ⟨0x80000005, some 1, 0, 0, 1, 0⟩ 5).2.1.hw_lock ≠ 0 ∧
        _DRM_LOCKING_CONTEXT
          (drm_lock_take ⟨0x80000005, some 1, 0, 0, 1, 0⟩ 5).2.1.hw_lock = 5)) := by
  decide

/-- C5, amended: `drm_lock_take` returns 1 if and only if the old lock word
was not already held by the context and the word it wrote has the held bit
set and the context as owner. -/
theorem drm_lock_take_success_iff (lock_data : drm_lock_data) (context : Nat) :
    (drm_lock_take lock_data context).1 = 1 ↔
      (¬ (_DRM_LOCK_IS_HELD lock_data.hw_lock ≠ 0 ∧
          _DRM_LOCKING_CONTEXT lock_data.hw_lock = context) ∧
        _DRM_LOCK_IS_HELD (drm_lock_take lock_data context).2.1.hw_lock ≠ 0 ∧
        _DRM_LOCKING_CONTEXT (drm_lock_take lock_data context).2.1.hw_lock = context) := by
  rw [drm_lock_take_lock_data]
  show _ ↔ (¬ (lock_data.hw_lock &&& _DRM_LOCK_HELD ≠ 0 ∧ _) ∧
    drm_lock_take_new lock_data context &&& _DRM_LOCK_HELD ≠ 0 ∧
    _DRM_LOCKING_CONTEXT (drm_lock_take_new lock_data context) = context)
  simp only [drm_lock_take]
  by_cases h1 : _DRM_LOCKING_CONTEXT lock_data.hw_lock = context ∧
      lock_data.hw_lock &&& _DRM_LOCK_HELD ≠ 0
  · rw [if_pos h1]
    constructor
    · intro h; exact absurd h (by simp)
    · intro h; exact absurd ⟨h1.2, h1.1⟩ h.1
  · rw [if_neg h1]
    by_cases h2 : _DRM_LOCKING_CONTEXT (drm_lock_take_new lock_data context) = context ∧
        drm_lock_take_new lock_data context &&& _DRM_LOCK_HELD ≠ 0
    · rw [if_pos h2]
      exact ⟨fun _ => ⟨fun hh => h1 ⟨hh.2, hh.1⟩, h2.2, h2.1⟩, fun _ => rfl⟩
    · rw [if_neg h2]
      constructor
      · intro h; exact absurd h (by simp)
      · intro h; exact absurd ⟨h.2.2, h.2.1⟩ h2

/-- C6 as stated fails: context 1 holds the lock uncontended, context 2 calls
`drm_lock`, blocks and is interrupted; the call returns `-EINTR` with
`user_waiters` restored, but the lock word has gained the contended bit. -/
theorem drm_lock_cancelled_word_unchanged_counterexample :
    ¬ ((drm_lock
          ⟨⟨false, false, none, false, false⟩, ⟨0x80000001, some 7, 0, 0, 0, 0⟩, 1, 0, 1⟩
          ⟨2, 0⟩ ⟨8, 0⟩ 0 [⟨fun l => l, 0⟩]).status = Status.returned (-EINTR) ∧
      (drm_lock
          ⟨⟨false, false, none, false, false⟩, ⟨0x80000001, some 7, 0, 0, 0, 0⟩, 1, 0, 1⟩
          ⟨2, 0⟩ ⟨8, 0⟩ 0 [⟨fun l => l, 0⟩]).dev.lock.user_waiters = 0 ∧
      (drm_lock
          ⟨⟨false, false, none, false, false⟩, ⟨0x80000001, some 7, 0, 0, 0, 0⟩, 1, 0, 1⟩
          ⟨2, 0⟩ ⟨8, 0⟩ 0 [⟨fun l => l, 0⟩]).dev.lock.hw_lock = 0x80000001) := by
  decide

/-- C6, amended: when the lock is held, a call of `drm_lock` that passes the
argument checks, blocks, is woken any number of times while the other threads
leave the lock word and the counters alone, and is then interrupted by a signal
(`cv_wait_sig` returns 0), returns `-EINTR` without the lock; `user_waiters`
and `kernel_waiters` have their values from before the call, and the lock
word is its value from before the call with the contended bit set, so the
held bit and the owner are unchanged. -/
theorem drm_lock_cancelled (dev : drm_device) (arg : drm_lock_arg) (file_priv : drm_file)
    (lbolt : Nat) (pre : List Wait) (sig : Wait) (rest : List Wait)
    (hk : arg.context ≠ DRM_KERNEL_CONTEXT)
    (hq : ¬ (dev.driver.DRIVER_DMA_QUEUE = true ∧ 2 ^ 31 ≤ arg.context))
    (hheld : _DRM_LOCK_IS_HELD dev.lock.hw_lock ≠ 0)
    (huw : dev.lock.user_waiters < 2 ^ 32)
    (hpre : ∀ w ∈ pre, w.ret ≠ 0 ∧ w.quiet) (hsig : sig.ret = 0 ∧ sig.quiet) :
    (drm_lock dev arg file_priv lbolt (pre ++ sig :: rest)).status =
      Status.returned (-EINTR) ∧
    (drm_lock dev arg file_priv lbolt (pre ++ sig :: rest)).got_lock = false ∧
    (drm_lock dev arg file_priv lbolt (pre ++ sig :: rest)).dev.lock.user_waiters =
      dev.lock.user_waiters ∧
    (drm_lock dev arg file_priv lbolt (pre ++ sig :: rest)).dev.lock.kernel_waiters =
      dev.lock.kernel_waiters ∧
    (drm_lock dev arg file_priv lbolt (pre ++ sig :: rest)).dev.lock.hw_lock =
      dev.lock.hw_lock ||| _DRM_LOCK_CONT ∧
    _DRM_LOCK_IS_HELD
        (drm_lock dev arg file_priv lbolt (pre ++ sig :: rest)).dev.lock.hw_lock =
      _DRM_LOCK_IS_HELD dev.lock.hw_lock ∧
    _DRM_LOCKING_CONTEXT
        (drm_lock dev arg file_priv lbolt (pre ++ sig :: rest)).dev.lock.hw_lock =
      _DRM_LOCKING_CONTEXT dev.lock.hw_lock := by
  have hL := drm_lock_loop_interrupted
    { file_priv with lock_count := file_priv.lock_count + 1 } arg.context lbolt sig rest hsig
    pre 0 { dev.lock with user_waiters := u32_inc dev.lock.user_waiters }
    dev.stat_locks hheld hpre
  have hne : -EINTR ≠ 0 := by decide
  rw [drm_lock_passed dev arg file_priv lbolt _ hk hq,
    drm_lock_resume_some _ arg _ lbolt 0 _ (-EINTR) hL.1,
    drm_lock_tail_status_of_ne _ _ _ _ _ _ hne, drm_lock_tail_got_lock, drm_lock_tail_dev]
  dsimp only at hL ⊢
  refine ⟨rfl, hL.2.1, ?_, hL.2.2.2.2, hL.2.2.1, ?_, ?_⟩
  · rw [hL.2.2.2.1]; exact dec_inc_waiters _ huw
  · rw [hL.2.2.1]; exact and_HELD_or_cont _
  · rw [hL.2.2.1]; exact locking_context_or_cont _

/-- Witness of C6, amended: context 2 asks for the lock context 1 holds, is
woken once for nothing and then interrupted. -/
theorem drm_lock_cancelled_witness :
    (drm_lock
        ⟨⟨false, false, none, false, false⟩, ⟨0x80000001, some 7, 0, 0, 0, 0⟩, 1, 0, 1⟩
        ⟨2, 0⟩ ⟨8, 0⟩ 0 ([⟨fun l => l, 1⟩] ++ ⟨fun l => l, 0⟩ :: [])).status =
      Status.returned (-EINTR) ∧
    (drm_lock
        ⟨⟨false, false, none, false, false⟩, ⟨0x80000001, some 7, 0, 0, 0, 0⟩, 1, 0, 1⟩
        ⟨2, 0⟩ ⟨8, 0⟩ 0 ([⟨fun l => l, 1⟩] ++ ⟨fun l => l, 0⟩ :: [])).dev.lock.hw_lock =
      0x80000001 ||| _DRM_LOCK_CONT :=
  have h := drm_lock_cancelled
    ⟨⟨false, false, none, false, false⟩, ⟨0x80000001, some 7, 0, 0, 0, 0⟩, 1, 0, 1⟩
    ⟨2, 0⟩ ⟨8, 0⟩ 0 [⟨fun l => l, 1⟩] ⟨fun l => l, 0⟩ []
    (by decide) (by decide) (by decide) (by decide)
    (by
      intro w hw
      rw [List.mem_singleton] at hw
      subst hw
      exact ⟨by decide, fun _ => ⟨rfl, rfl, rfl⟩⟩)
    ⟨rfl, fun _ => ⟨rfl, rfl, rfl⟩⟩
  ⟨h.1, h.2.2.2.2.1⟩

/-- C7: a call of `drm_lock` has no net effect on the waiter counters, whatever
way it ends. From a state with a 32-bit `user_waiters`, with any context and
any sequence of waits during which the other threads leave the two counters
as they found them: `kernel_waiters` is unchanged; when the call has returned
(with any value) `user_waiters` is its value from before the call; while the
call is blocked `user_waiters` is that value incremented once as a 32-bit
counter, which is one higher unless the counter wraps. -/
theorem drm_lock_waiters_balanced (dev : drm_device) (arg : drm_lock_arg)
    (file_priv : drm_file) (lbolt : Nat) (waits : List Wait)
    (huw : dev.lock.user_waiters < 2 ^ 32)
    (hws : ∀ w ∈ waits, w.keeps_waiters) :
    (drm_lock dev arg file_priv lbolt waits).dev.lock.kernel_waiters =
      dev.lock.kernel_waiters ∧
    (∀ ret : Int, (drm_lock dev arg file_priv lbolt waits).status = Status.returned ret →
      (drm_lock dev arg file_priv lbolt waits).dev.lock.user_waiters =
        dev.lock.user_waiters) ∧
    ((drm_lock dev arg file_priv lbolt waits).status = Status.blocked →
      (drm_lock dev arg file_priv lbolt waits).dev.lock.user_waiters =
        u32_inc dev.lock.user_waiters) ∧
    (dev.lock.user_waiters + 1 < 2 ^ 32 →
      (drm_lock dev arg file_priv lbolt waits).status = Status.blocked →
      (drm_lock dev arg file_priv lbolt waits).dev.lock.user_waiters =
        dev.lock.user_waiters + 1) := by
  suffices main :
      (drm_lock dev arg file_priv lbolt waits).dev.lock.kernel_waiters =
        dev.lock.kernel_waiters ∧
      (∀ ret : Int, (drm_lock dev arg file_priv lbolt waits).status = Status.returned ret →
        (drm_lock dev arg file_priv lbolt waits).dev.lock.user_waiters =
          dev.lock.user_waiters) ∧
      ((drm_lock dev arg file_priv lbolt waits).status = Status.blocked →
        (drm_lock dev arg file_priv lbolt waits).dev.lock.user_waiters =
          u32_inc dev.lock.user_waiters) from
    ⟨main.1, main.2.1, main.2.2, fun hlt hb =>
      (main.2.2 hb).trans (by unfold u32_inc; exact Nat.mod_eq_of_lt hlt)⟩
  by_cases hk : arg.context = DRM_KERNEL_CONTEXT
  · simp only [drm_lock]
    rw [if_pos hk]
    exact ⟨rfl, fun _ _ => rfl, fun h => absurd h (by simp)⟩
  · by_cases hq : dev.driver.DRIVER_DMA_QUEUE = true ∧ 2 ^ 31 ≤ arg.context
    · simp only [drm_lock]
      rw [if_neg hk, if_pos hq]
      exact ⟨rfl, fun _ _ => rfl, fun h => absurd h (by simp)⟩
    · have hL := drm_lock_loop_waiters
        { file_priv with lock_count := file_priv.lock_count + 1 } arg.context lbolt waits 0
        { dev.lock with user_waiters := u32_inc dev.lock.user_waiters }
        dev.stat_locks hws
      rw [drm_lock_passed dev arg file_priv lbolt waits hk hq]
      cases hr : (drm_lock_loop { file_priv with lock_count := file_priv.lock_count + 1 }
          arg.context lbolt waits 0
          { dev.lock with user_waiters := u32_inc dev.lock.user_waiters }
          dev.stat_locks).1 with
      | none =>
        rw [drm_lock_resume_none _ arg _ lbolt 0 waits hr]
        dsimp only at hL ⊢
        exact ⟨hL.1, fun _ h => absurd h (by simp), fun _ => hL.2⟩
      | some r =>
        rw [drm_lock_resume_some _ arg _ lbolt 0 waits r hr, drm_lock_tail_dev]
        dsimp only at hL ⊢
        refine ⟨hL.1, fun _ _ => ?_, fun h => absurd h (drm_lock_tail_status _ _ _ _ _ _)⟩
        rw [hL.2]; exact dec_inc_waiters _ huw

/-- Witness of C7: context 2 asks for the lock context 1 holds and blocks;
meanwhile context 1 frees the lock; woken, context 2 takes it. -/
theorem drm_lock_waiters_balanced_witness :
    (drm_lock
        ⟨⟨false, false, none, false, false⟩, ⟨0x80000001, some 7, 0, 0, 0, 0⟩, 1, 0, 1⟩
        ⟨2, 0⟩ ⟨8, 0⟩ 0 [⟨fun l => (drm_lock_free l 1).2.1, 1⟩]).dev.lock.kernel_waiters = 0 ∧
    (drm_lock
        ⟨⟨false, false, none, false, false⟩, ⟨0x80000001, some 7, 0, 0, 0, 0⟩, 1, 0, 1⟩
        ⟨2, 0⟩ ⟨8, 0⟩ 0 [⟨fun l => (drm_lock_free l 1).2.1, 1⟩]).got_lock = true :=
  ⟨(drm_lock_waiters_balanced
      ⟨⟨false, false, none, false, false⟩, ⟨0x80000001, some 7, 0, 0, 0, 0⟩, 1, 0, 1⟩
      ⟨2, 0⟩ ⟨8, 0⟩ 0 [⟨fun l => (drm_lock_free l 1).2.1, 1⟩] (by decide)
      (by
        intro w hw
        rw [List.mem_singleton] at hw
        subst hw
        intro l
        simp only [drm_lock_free, drm_lock_transfer]
        split_ifs <;> exact ⟨rfl, rfl⟩)).1,
    by decide⟩

/-- C8: with a kernel waiter, `drm_lock_free` by any context returns 1,
leaves the lock word held by the kernel context and not contended, clears the
recorded holder, sets `idle_has_lock`, keeps both waiter counters and issues
no event (no broadcast). In particular: when the lock is held, a context B
calls `drm_lock` and blocks, `drm_idlelock_take` is called with no kernel
waiter before, and the holder then frees the lock, the lock is held by the
kernel context, `idle_has_lock` is set, and no broadcast wakes B. -/
theorem drm_lock_free_hands_to_kernel :
    (∀ (lock_data : drm_lock_data) (context : Nat), lock_data.kernel_waiters ≠ 0 →
      (drm_lock_free lock_data context).1 = 1 ∧
      (drm_lock_free lock_data context).2.1.hw_lock = DRM_KERNEL_CONTEXT ||| _DRM_LOCK_HELD ∧
      _DRM_LOCK_IS_HELD (drm_lock_free lock_data context).2.1.hw_lock ≠ 0 ∧
      _DRM_LOCKING_CONTEXT (drm_lock_free lock_data context).2.1.hw_lock =
        DRM_KERNEL_CONTEXT ∧
      _DRM_LOCK_IS_CONT (drm_lock_free lock_data context).2.1.hw_lock = 0 ∧
      (drm_lock_free lock_data context).2.1.idle_has_lock = 1 ∧
      (drm_lock_free lock_data context).2.1.user_waiters = lock_data.user_waiters ∧
      (drm_lock_free lock_data context).2.1.kernel_waiters = lock_data.kernel_waiters ∧
      (drm_lock_free lock_data context).2.2 = []) ∧
    (∀ (dev : drm_device) (B : drm_lock_arg) (file_B : drm_file) (lbolt A : Nat),
      _DRM_LOCK_IS_HELD dev.lock.hw_lock ≠ 0 →
      dev.lock.kernel_waiters = 0 →
      B.context ≠ DRM_KERNEL_CONTEXT → B.context < 2 ^ 31 →
      (drm_lock dev B file_B lbolt []).status = Status.blocked ∧
      (drm_idlelock_take (drm_lock dev B file_B lbolt []).dev.lock).1.kernel_waiters = 1 ∧
      (drm_lock_free
        (drm_idlelock_take (drm_lock dev B file_B lbolt []).dev.lock).1 A).1 = 1 ∧
      (drm_lock_free
        (drm_idlelock_take (drm_lock dev B file_B lbolt []).dev.lock).1 A).2.1.hw_lock =
          DRM_KERNEL_CONTEXT ||| _DRM_LOCK_HELD ∧
      (drm_lock_free
        (drm_idlelock_take (drm_lock dev B file_B lbolt []).dev.lock).1 A).2.1.idle_has_lock
          = 1 ∧
      Event.cv_broadcast ∉ (drm_lock_free
        (drm_idlelock_take (drm_lock dev B file_B lbolt []).dev.lock).1 A).2.2) := by
  constructor
  · intro lock_data context h
    rw [drm_lock_free_transfer lock_data context h]
    have h1 : _DRM_LOCK_IS_HELD (0 ||| _DRM_LOCK_HELD) ≠ 0 := by decide
    have h2 : _DRM_LOCKING_CONTEXT (0 ||| _DRM_LOCK_HELD) = DRM_KERNEL_CONTEXT := by decide
    have h3 : _DRM_LOCK_IS_CONT (0 ||| _DRM_LOCK_HELD) = 0 := by decide
    exact ⟨rfl, rfl, h1, h2, h3, rfl, rfl, rfl, rfl⟩
  · intro dev B file_B lbolt A hheld hkw hB hB31
    have hheld1 : dev.lock.hw_lock &&& _DRM_LOCK_HELD ≠ 0 := hheld
    have hq : ¬ (dev.driver.DRIVER_DMA_QUEUE = true ∧ 2 ^ 31 ≤ B.context) := by
      intro hh; omega
    have hblocked := drm_lock_blocked_of_held dev B file_B lbolt hB hq hheld1
    have hheld2 : (dev.lock.hw_lock ||| _DRM_LOCK_CONT) &&& _DRM_LOCK_HELD ≠ 0 := by
      rw [and_HELD_or_cont]; exact hheld1
    have hidle : (drm_idlelock_take (drm_lock dev B file_B lbolt []).dev.lock).1.kernel_waiters
        = 1 := by
      rw [hblocked.2.2]
      simp only [drm_idlelock_take]
      split_ifs <;> simp [drm_lock_take_lock_data, hkw, u32_inc]
    have hne : (drm_idlelock_take (drm_lock dev B file_B lbolt []).dev.lock).1.kernel_waiters
        ≠ 0 := by rw [hidle]; decide
    rw [drm_lock_free_transfer _ A hne]
    exact ⟨hblocked.1, hidle, rfl, rfl, rfl, by simp⟩

/-- Witness of C8: context 1 holds the lock, context 2 blocks, the kernel asks
for the idle lock, context 1 frees. -/
theorem drm_lock_free_hands_to_kernel_witness :
    (⟨0x80000001, some 7, 0, 1, 1, 0⟩ : drm_lock_data).kernel_waiters ≠ 0 ∧
    (drm_lock_free ⟨0x80000001, some 7, 0, 1, 1, 0⟩ 1).1 = 1 ∧
    (drm_lock ⟨⟨false, false, none, false, false⟩, ⟨0x80000001, some 7, 0, 0, 0, 0⟩, 1, 0, 1⟩
      ⟨2, 0⟩ ⟨8, 0⟩ 0 []).status = Status.blocked :=
  ⟨by decide,
    (drm_lock_free_hands_to_kernel.1 ⟨0x80000001, some 7, 0, 1, 1, 0⟩ 1 (by decide)).1,
    (drm_lock_free_hands_to_kernel.2
      ⟨⟨false, false, none, false, false⟩, ⟨0x80000001, some 7, 0, 0, 0, 0⟩, 1, 0, 1⟩
      ⟨2, 0⟩ ⟨8, 0⟩ 0 1 (by decide) (by decide) (by decide) (by decide)).1⟩

/-- C9: `drm_lock_free` broadcasts if and only if it returns 0; it returns 0
exactly when there is no kernel waiter and the lock word was not held by
another context than the caller; the lock word is then the old owner field
alone, held and contended bits clear, and nothing else of the lock data
changes. -/
theorem drm_lock_free_broadcast_iff (lock_data : drm_lock_data) (context : Nat) :
    (Event.cv_broadcast ∈ (drm_lock_free lock_data context).2.2 ↔
      (drm_lock_free lock_data context).1 = 0) ∧
    ((drm_lock_free lock_data context).1 = 0 ↔
      (lock_data.kernel_waiters = 0 ∧
        ¬ (_DRM_LOCK_IS_HELD lock_data.hw_lock ≠ 0 ∧
          _DRM_LOCKING_CONTEXT lock_data.hw_lock ≠ context))) ∧
    ((drm_lock_free lock_data context).1 = 0 →
      (drm_lock_free lock_data context).2.1 =
        { lock_data with hw_lock := _DRM_LOCKING_CONTEXT lock_data.hw_lock } ∧
      _DRM_LOCK_IS_HELD (drm_lock_free lock_data context).2.1.hw_lock = 0 ∧
      _DRM_LOCK_IS_CONT (drm_lock_free lock_data context).2.1.hw_lock = 0 ∧
      _DRM_LOCKING_CONTEXT (drm_lock_free lock_data context).2.1.hw_lock =
        _DRM_LOCKING_CONTEXT lock_data.hw_lock) := by
  by_cases hk : lock_data.kernel_waiters = 0
  · by_cases h : _DRM_LOCK_IS_HELD lock_data.hw_lock ≠ 0 ∧
        _DRM_LOCKING_CONTEXT lock_data.hw_lock ≠ context
    · rw [drm_lock_free_foreign lock_data context hk h]
      refine ⟨by simp, ?_, ?_⟩
      · exact ⟨fun hh => absurd hh (by simp), fun hh => absurd h hh.2⟩
      · intro hh; exact absurd hh (by simp)
    · rw [drm_lock_free_released lock_data context hk h]
      refine ⟨by simp, ?_, ?_⟩
      · exact ⟨fun _ => ⟨hk, h⟩, fun _ => rfl⟩
      · intro _
        exact ⟨rfl, is_held_locking_context _, is_cont_locking_context _,
          locking_context_idem _⟩
  · rw [drm_lock_free_transfer lock_data context hk]
    refine ⟨by simp, ?_, ?_⟩
    · exact ⟨fun hh => absurd hh (by simp), fun hh => absurd hh.1 hk⟩
    · intro hh; exact absurd hh (by simp)

/-- C10 as stated fails: context 1 holds the lock, context 2 frees it; the call
reports the foreign release, but the lock word is no longer held. -/
theorem drm_lock_free_foreign_keeps_held_counterexample :
    ¬ ((drm_lock_free ⟨0x80000001, some 7, 0, 0, 0, 0⟩ 2).1 ≠ 0 ∧
      _DRM_LOCK_IS_HELD (drm_lock_free ⟨0x80000001, some 7, 0, 0, 0, 0⟩ 2).2.1.hw_lock ≠ 0 ∧
      _DRM_LOCKING_CONTEXT
        (drm_lock_free ⟨0x80000001, some 7, 0, 0, 0, 0⟩ 2).2.1.hw_lock = 1) := by
  decide

/-- C10, amended: without a kernel waiter, `drm_lock_free` by a context other
than the one holding the lock returns 1 and logs an error without a broadcast;
the recorded holder, the lock time, both waiter counters and `idle_has_lock`
are unchanged; the lock word keeps its owner field, with the held and
contended bits cleared. -/
theorem drm_lock_free_by_non_owner (lock_data : drm_lock_data) (context : Nat)
    (hk : lock_data.kernel_waiters = 0)
    (hheld : _DRM_LOCK_IS_HELD lock_data.hw_lock ≠ 0)
    (hne : _DRM_LOCKING_CONTEXT lock_data.hw_lock ≠ context) :
    (drm_lock_free lock_data context).1 = 1 ∧
    (drm_lock_free lock_data context).2.2 = [Event.DRM_ERROR] ∧
    (drm_lock_free lock_data context).2.1 =
      { lock_data with hw_lock := _DRM_LOCKING_CONTEXT lock_data.hw_lock } ∧
    _DRM_LOCKING_CONTEXT (drm_lock_free lock_data context).2.1.hw_lock =
      _DRM_LOCKING_CONTEXT lock_data.hw_lock ∧
    _DRM_LOCK_IS_HELD (drm_lock_free lock_data context).2.1.hw_lock = 0 ∧
    _DRM_LOCK_IS_CONT (drm_lock_free lock_data context).2.1.hw_lock = 0 := by
  rw [drm_lock_free_foreign lock_data context hk ⟨hheld, hne⟩]
  exact ⟨rfl, rfl, rfl, locking_context_idem _, is_held_locking_context _,
    is_cont_locking_context _⟩

/-- Witness of C10, amended: context 2 frees the lock context 1 holds. -/
theorem drm_lock_free_by_non_owner_witness :
    (⟨0x80000001, some 7, 0, 0, 0, 0⟩ : drm_lock_data).kernel_waiters = 0 ∧
    _DRM_LOCK_IS_HELD (⟨0x80000001, some 7, 0, 0, 0, 0⟩ : drm_lock_data).hw_lock ≠ 0 ∧
    _DRM_LOCKING_CONTEXT (⟨0x80000001, some 7, 0, 0, 0, 0⟩ : drm_lock_data).hw_lock ≠ 2 ∧
    (drm_lock_free ⟨0x80000001, some 7, 0, 0, 0, 0⟩ 2).1 = 1 ∧
    (drm_lock_free ⟨0x80000001, some 7, 0, 0, 0, 0⟩ 2).2.1.hw_lock = 1 :=
  ⟨by decide, by decide, by decide,
    (drm_lock_free_by_non_owner ⟨0x80000001, some 7, 0, 0, 0, 0⟩ 2
      (by decide) (by decide) (by decide)).1,
    by decide⟩

/-- C11, what the code does: when context `c` owns the lock word and there
is no kernel waiter, `drm_lock_free` by `c` returns 0 and clears the held
bit, but the recorded holder `file_priv` is what it was before the call: the
free path does not clear it. -/
theorem drm_lock_free_leaves_file_priv (lock_data : drm_lock_data) (context : Nat)
    (hk : lock_data.kernel_waiters = 0)
    (hown : _DRM_LOCKING_CONTEXT lock_data.hw_lock = context) :
    (drm_lock_free lock_data context).1 = 0 ∧
    _DRM_LOCK_IS_HELD (drm_lock_free lock_data context).2.1.hw_lock = 0 ∧
    (drm_lock_free lock_data context).2.1.file_priv = lock_data.file_priv := by
  rw [drm_lock_free_released lock_data context hk (fun hh => hh.2 hown)]
  exact ⟨rfl, is_held_locking_context _, rfl⟩

/-- Witness of C11, the failing input: context 1 holds the lock with file 7
recorded as holder and there is no kernel waiter; after `drm_lock_free` by
context 1 the lock is free and file 7 is still the recorded holder. With a
kernel waiter the same call transfers the lock and clears the recorded
holder. -/
theorem drm_lock_free_leaves_file_priv_witness :
    (drm_lock_free ⟨0x80000001, some 7, 0, 0, 0, 0⟩ 1).1 = 0 ∧
    _DRM_LOCK_IS_HELD (drm_lock_free ⟨0x80000001, some 7, 0, 0, 0, 0⟩ 1).2.1.hw_lock = 0 ∧
    (drm_lock_free ⟨0x80000001, some 7, 0, 0, 0, 0⟩ 1).2.1.file_priv = some 7 ∧
    (drm_lock_free ⟨0x80000001, some 7, 0, 1, 0, 0⟩ 1).2.1.file_priv = none :=
  have h := drm_lock_free_leaves_file_priv ⟨0x80000001, some 7, 0, 0, 0, 0⟩ 1
    (by decide) (by decide)
  ⟨h.1, h.2.1, h.2.2, by decide⟩

/-- C12 as stated fails: the idle path holds the lock with one kernel waiter;
`drm_idlelock_release` brings `kernel_waiters` to 0, broadcasts and clears
`idle_has_lock`, but the lock word it leaves is not held. -/
theorem drm_idlelock_release_parked_held_counterexample :
    ¬ ((drm_idlelock_release ⟨0x80000000, none, 0, 1, 0, 1⟩).1.kernel_waiters = 0 ∧
      _DRM_LOCK_IS_HELD (drm_idlelock_release ⟨0x80000000, none, 0, 1, 0, 1⟩).1.hw_lock ≠ 0 ∧
      _DRM_LOCKING_CONTEXT (drm_idlelock_release ⟨0x80000000, none, 0, 1, 0, 1⟩).1.hw_lock =
        DRM_KERNEL_CONTEXT) := by
  decide

/-- C12, amended: with `kernel_waiters == 1` and `idle_has_lock` set,
`drm_idlelock_release` brings `kernel_waiters` to 0, leaves the lock word
equal to `DRM_KERNEL_CONTEXT` (owner the kernel context, held and contended
bits clear: the lock is free), broadcasts once and clears `idle_has_lock`,
and changes nothing else; when the decrement does not reach zero or
`idle_has_lock` is clear, it changes nothing but `kernel_waiters` and issues
no event. -/
theorem drm_idlelock_release_frees :
    (∀ lock_data : drm_lock_data,
      lock_data.kernel_waiters = 1 → lock_data.idle_has_lock ≠ 0 →
      drm_idlelock_release lock_data =
        ({ lock_data with
            kernel_waiters := 0, hw_lock := DRM_KERNEL_CONTEXT, idle_has_lock := 0 },
          [Event.cv_broadcast]) ∧
      _DRM_LOCK_IS_HELD (drm_idlelock_release lock_data).1.hw_lock = 0 ∧
      _DRM_LOCK_IS_CONT (drm_idlelock_release lock_data).1.hw_lock = 0 ∧
      _DRM_LOCKING_CONTEXT (drm_idlelock_release lock_data).1.hw_lock = DRM_KERNEL_CONTEXT) ∧
    (∀ lock_data : drm_lock_data,
      (u32_dec lock_data.kernel_waiters ≠ 0 ∨ lock_data.idle_has_lock = 0) →
      drm_idlelock_release lock_data =
        ({ lock_data with kernel_waiters := u32_dec lock_data.kernel_waiters }, [])) := by
  constructor
  · intro lock_data h1 h2
    have hd : u32_dec lock_data.kernel_waiters = 0 := by rw [h1]; decide
    have a1 : _DRM_LOCK_IS_HELD DRM_KERNEL_CONTEXT = 0 := by decide
    have a2 : _DRM_LOCK_IS_CONT DRM_KERNEL_CONTEXT = 0 := by decide
    have a3 : _DRM_LOCKING_CONTEXT DRM_KERNEL_CONTEXT = DRM_KERNEL_CONTEXT := by decide
    rw [drm_idlelock_release_parks lock_data hd h2, hd]
    exact ⟨rfl, a1, a2, a3⟩
  · intro lock_data h
    exact drm_idlelock_release_counts lock_data h

/-- Witness of C12, amended: the idle path gives the lock back; and a release
with two kernel waiters only counts down. -/
theorem drm_idlelock_release_frees_witness :
    (drm_idlelock_release ⟨0x80000000, none, 0, 1, 0, 1⟩).1.hw_lock = DRM_KERNEL_CONTEXT ∧
    drm_idlelock_release ⟨0x80000000, none, 0, 2, 0, 1⟩ =
      (⟨0x80000000, none, 0, 1, 0, 1⟩, []) :=
  ⟨congrArg (fun r => r.1.hw_lock)
      (drm_idlelock_release_frees.1 ⟨0x80000000, none, 0, 1, 0, 1⟩ (by decide) (by decide)).1,
    drm_idlelock_release_frees.2 ⟨0x80000000, none, 0, 2, 0, 1⟩ (Or.inl (by decide))⟩

/-- C13, what the code does: the idle path holds the lock (`idle_has_lock`
set, one kernel waiter, lock word held), a context B other than the kernel
context and below `2 ^ 30` calls `drm_lock` and blocks; `drm_idlelock_release`
runs during the wait and `cv_wait_sig` returns the non-zero value `woken`.
The retried take succeeds: the call leaves the loop with the lock, the word is
held with owner B and the caller is the recorded holder. But `drm_lock`
returns `woken`, the value of `cv_wait_sig`, and not 0. -/
theorem drm_lock_woken_returns_wait_value (dev : drm_device) (arg : drm_lock_arg) (file_priv : drm_file) (lbolt : Nat)
    (woken : Int) (hwoken : woken ≠ 0)
    (hidle : dev.lock.idle_has_lock ≠ 0) (hkw : dev.lock.kernel_waiters = 1)
    (hheld : _DRM_LOCK_IS_HELD dev.lock.hw_lock ≠ 0)
    (hB0 : arg.context ≠ DRM_KERNEL_CONTEXT) (hB : arg.context < 2 ^ 30) :
    (drm_lock dev arg file_priv lbolt []).status = Status.blocked ∧
    (drm_lock dev arg file_priv lbolt
      [⟨fun l => (drm_idlelock_release l).1, woken⟩]).got_lock = true ∧
    (drm_lock dev arg file_priv lbolt
      [⟨fun l => (drm_idlelock_release l).1, woken⟩]).dev.lock.file_priv =
        some file_priv.handle ∧
    _DRM_LOCK_IS_HELD (drm_lock dev arg file_priv lbolt
      [⟨fun l => (drm_idlelock_release l).1, woken⟩]).dev.lock.hw_lock ≠ 0 ∧
    _DRM_LOCKING_CONTEXT (drm_lock dev arg file_priv lbolt
      [⟨fun l => (drm_idlelock_release l).1, woken⟩]).dev.lock.hw_lock = arg.context ∧
    (drm_lock dev arg file_priv lbolt
      [⟨fun l => (drm_idlelock_release l).1, woken⟩]).status = Status.returned woken ∧
    (drm_lock dev arg file_priv lbolt
      [⟨fun l => (drm_idlelock_release l).1, woken⟩]).status ≠ Status.returned 0 := by
  have hq : ¬ (dev.driver.DRIVER_DMA_QUEUE = true ∧ 2 ^ 31 ≤ arg.context) := by
    intro hh; omega
  have hheld1 : dev.lock.hw_lock &&& _DRM_LOCK_HELD ≠ 0 := hheld
  have hc : arg.context % 2 ^ 30 = arg.context := Nat.mod_eq_of_lt hB
  have hblocked := (drm_lock_blocked_of_held dev arg file_priv lbolt hB0 hq hheld1).1
  have hd : u32_dec dev.lock.kernel_waiters = 0 := by rw [hkw]; decide
  have hrel := drm_idlelock_release_parks
    { dev.lock with
      user_waiters := u32_inc dev.lock.user_waiters
      hw_lock := dev.lock.hw_lock ||| _DRM_LOCK_CONT } hd hidle
  have hword : (drm_idlelock_release
      { dev.lock with
        user_waiters := u32_inc dev.lock.user_waiters
        hw_lock := dev.lock.hw_lock ||| _DRM_LOCK_CONT }).1.hw_lock = DRM_KERNEL_CONTEXT := by
    rw [hrel]
  have hfree : ¬ (drm_idlelock_release
      { dev.lock with
        user_waiters := u32_inc dev.lock.user_waiters
        hw_lock := dev.lock.hw_lock ||| _DRM_LOCK_CONT }).1.hw_lock &&& _DRM_LOCK_HELD ≠ 0 := by
    rw [hword]
    decide
  have hp := drm_lock_passed dev arg file_priv lbolt
    [⟨fun l => (drm_idlelock_release l).1, woken⟩] hB0 hq
  have hW := drm_lock_resume_woken
    { dev with lock := { dev.lock with user_waiters := u32_inc dev.lock.user_waiters } }
    arg { file_priv with lock_count := file_priv.lock_count + 1 } lbolt 0
    ⟨fun l => (drm_idlelock_release l).1, woken⟩ hwoken hheld1
  have hN := drm_lock_resume_nil_free
    { dev with lock := (drm_idlelock_release
      { dev.lock with
        user_waiters := u32_inc dev.lock.user_waiters
        hw_lock := dev.lock.hw_lock ||| _DRM_LOCK_CONT }).1 }
    arg { file_priv with lock_count := file_priv.lock_count + 1 } lbolt woken hfree hc
  have hst := ((congrArg LockResult.status hp).trans hW.1).trans (hN.2.2.2.2 hwoken)
  have hdev := (congrArg LockResult.dev hp).trans hW.2.2
  refine ⟨hblocked, ((congrArg LockResult.got_lock hp).trans hW.2.1).trans hN.1,
    ?_, ?_, ?_, hst, ?_⟩
  · rw [hdev]; exact hN.2.1
  · rw [hdev]; exact hN.2.2.1
  · rw [hdev]; exact hN.2.2.2.1
  · rw [hst]
    intro he
    exact hwoken (Status.returned.inj he)

/-- Witness of C13, the failing input: the idle path holds the lock, context
2 of file 8 calls `drm_lock` and blocks, `drm_idlelock_release` runs and
`cv_wait_sig` returns 1. The call takes the lock (word `0x80000002`, file 8
recorded) but returns 1 and calls no hook; the same call on a free lock,
which does not wait, returns 0 and calls the hooks. -/
theorem drm_lock_woken_returns_wait_value_witness :
    (drm_lock ⟨⟨false, true, none, true, false⟩, ⟨0x80000000, none, 0, 1, 0, 1⟩, 0, 0, 0⟩
        ⟨2, 1⟩ ⟨8, 0⟩ 5 [⟨fun l => (drm_idlelock_release l).1, 1⟩]).got_lock = true ∧
    (drm_lock ⟨⟨false, true, none, true, false⟩, ⟨0x80000000, none, 0, 1, 0, 1⟩, 0, 0, 0⟩
        ⟨2, 1⟩ ⟨8, 0⟩ 5 [⟨fun l => (drm_idlelock_release l).1, 1⟩]).dev.lock =
      ⟨0x80000002, some 8, 5, 0, 0, 0⟩ ∧
    (drm_lock ⟨⟨false, true, none, true, false⟩, ⟨0x80000000, none, 0, 1, 0, 1⟩, 0, 0, 0⟩
        ⟨2, 1⟩ ⟨8, 0⟩ 5 [⟨fun l => (drm_idlelock_release l).1, 1⟩]).status =
      Status.returned 1 ∧
    (drm_lock ⟨⟨false, true, none, true, false⟩, ⟨0x80000000, none, 0, 1, 0, 1⟩, 0, 0, 0⟩
        ⟨2, 1⟩ ⟨8, 0⟩ 5 [⟨fun l => (drm_idlelock_release l).1, 1⟩]).events = [] ∧
    (drm_lock ⟨⟨false, true, none, true, false⟩, ⟨2, none, 0, 0, 0, 0⟩, 0, 0, 0⟩
        ⟨2, 1⟩ ⟨8, 0⟩ 5 []).status = Status.returned 0 ∧
    (drm_lock ⟨⟨false, true, none, true, false⟩, ⟨2, none, 0, 0, 0, 0⟩, 0, 0, 0⟩
        ⟨2, 1⟩ ⟨8, 0⟩ 5 []).events =
      [Event.dma_ready, Event.kernel_context_switch 0 2] :=
  have h := drm_lock_woken_returns_wait_value
    ⟨⟨false, true, none, true, false⟩, ⟨0x80000000, none, 0, 1, 0, 1⟩, 0, 0, 0⟩
    ⟨2, 1⟩ ⟨8, 0⟩ 5 1 (by decide) (by decide) (by decide) (by decide) (by decide) (by decide)
  ⟨h.2.1, by decide, h.2.2.2.2.2.1, by decide, by decide, by decide⟩

/-- C14: `drm_idlelock_take` never waits and makes at most one attempt. It
is a total function that consumes no wait and issues no event; it increments
`kernel_waiters` once (as a 32-bit counter: by exactly 1 unless the counter
wraps) and leaves `user_waiters`, the recorded holder and the lock time as
they were. When `idle_has_lock` was set, the lock word and `idle_has_lock`
are unchanged. Otherwise the lock word is the one a single
`drm_lock_take` with the kernel context, made after the increment, leaves,
and `idle_has_lock` becomes set if and only if that attempt returned 1, which
is if and only if the lock was free. -/
theorem drm_idlelock_take_single_attempt (lock_data : drm_lock_data) :
    (drm_idlelock_take lock_data).2 = [] ∧
    (drm_idlelock_take lock_data).1.kernel_waiters = u32_inc lock_data.kernel_waiters ∧
    (lock_data.kernel_waiters + 1 < 2 ^ 32 →
      (drm_idlelock_take lock_data).1.kernel_waiters = lock_data.kernel_waiters + 1) ∧
    (drm_idlelock_take lock_data).1.user_waiters = lock_data.user_waiters ∧
    (drm_idlelock_take lock_data).1.file_priv = lock_data.file_priv ∧
    (drm_idlelock_take lock_data).1.lock_time = lock_data.lock_time ∧
    (lock_data.idle_has_lock ≠ 0 →
      (drm_idlelock_take lock_data).1.hw_lock = lock_data.hw_lock ∧
      (drm_idlelock_take lock_data).1.idle_has_lock = lock_data.idle_has_lock) ∧
    (lock_data.idle_has_lock = 0 →
      (drm_idlelock_take lock_data).1.hw_lock =
        (drm_lock_take { lock_data with kernel_waiters := u32_inc lock_data.kernel_waiters }
          DRM_KERNEL_CONTEXT).2.1.hw_lock ∧
      ((drm_idlelock_take lock_data).1.idle_has_lock ≠ 0 ↔
        (drm_lock_take { lock_data with kernel_waiters := u32_inc lock_data.kernel_waiters }
          DRM_KERNEL_CONTEXT).1 = 1) ∧
      ((drm_idlelock_take lock_data).1.idle_has_lock ≠ 0 ↔
        _DRM_LOCK_IS_HELD lock_data.hw_lock = 0) ∧
      (drm_idlelock_take lock_data).1.idle_has_lock =
        if _DRM_LOCK_IS_HELD lock_data.hw_lock = 0 then 1 else 0) := by
  have hinc : lock_data.kernel_waiters + 1 < 2 ^ 32 →
      u32_inc lock_data.kernel_waiters = lock_data.kernel_waiters + 1 := by
    intro hlt
    unfold u32_inc
    exact Nat.mod_eq_of_lt hlt
  by_cases h0 : lock_data.idle_has_lock = 0
  · by_cases hh : lock_data.hw_lock &&& _DRM_LOCK_HELD ≠ 0
    · have hheld : ¬ _DRM_LOCK_IS_HELD lock_data.hw_lock = 0 := hh
      have ht := drm_lock_take_ret_held
        { lock_data with kernel_waiters := u32_inc lock_data.kernel_waiters }
        DRM_KERNEL_CONTEXT hh
      have hl := drm_lock_take_lock_data
        { lock_data with kernel_waiters := u32_inc lock_data.kernel_waiters }
        DRM_KERNEL_CONTEXT
      rw [drm_lock_take_new_held
        { lock_data with kernel_waiters := u32_inc lock_data.kernel_waiters }
        DRM_KERNEL_CONTEXT hh] at hl
      rw [drm_idlelock_take_of_held lock_data h0 hh, ht, hl, if_neg hheld]
      refine ⟨rfl, rfl, hinc, rfl, rfl, rfl, fun h => absurd h0 h, fun _ => ⟨rfl, ?_, ?_, h0⟩⟩
      · exact ⟨fun h => absurd h0 h, fun h => absurd h (by decide)⟩
      · exact ⟨fun h => absurd h0 h, fun h => absurd h hheld⟩
    · have hfree : _DRM_LOCK_IS_HELD lock_data.hw_lock = 0 := by
        by_contra hc; exact hh hc
      have ht := drm_lock_take_ret_free
        { lock_data with kernel_waiters := u32_inc lock_data.kernel_waiters }
        DRM_KERNEL_CONTEXT hh
      rw [if_pos (by decide)] at ht
      have hl := drm_lock_take_lock_data
        { lock_data with kernel_waiters := u32_inc lock_data.kernel_waiters }
        DRM_KERNEL_CONTEXT
      rw [drm_idlelock_take_of_free lock_data h0 hh, ht, hl, if_pos hfree]
      refine ⟨rfl, rfl, hinc, rfl, rfl, rfl, fun h => absurd h0 h, fun _ => ⟨rfl, ?_, ?_, rfl⟩⟩
      · exact ⟨fun _ => rfl, fun _ => Nat.one_ne_zero⟩
      · exact ⟨fun _ => hfree, fun _ => Nat.one_ne_zero⟩
  · rw [drm_idlelock_take_of_idle lock_data h0]
    exact ⟨rfl, rfl, hinc, rfl, rfl, rfl, fun _ => ⟨rfl, rfl⟩, fun h => absurd h h0⟩

/-- C15: `drm_i_have_hw_lock` is false for every caller whose `lock_count` is
0, whatever the lock word and the recorded holder are; and it is false for
every caller in the state `drm_lock_free` leaves, whoever frees with whatever
context: when the lock was freed the held bit is clear, when it was
transferred to the kernel context the recorded holder is cleared. In
particular it is false right after the release by a caller that had acquired
the lock. -/
theorem drm_i_have_hw_lock_before_and_after :
    (∀ (dev : drm_device) (file_priv : drm_file), file_priv.lock_count = 0 →
      drm_i_have_hw_lock dev file_priv = false) ∧
    (∀ (dev : drm_device) (file_priv : drm_file) (context : Nat),
      drm_i_have_hw_lock { dev with lock := (drm_lock_free dev.lock context).2.1 } file_priv
        = false) ∧
    (∀ (dev : drm_device) (arg : drm_lock_arg) (file_priv : drm_file) (lbolt : Nat)
      (waits : List Wait),
      (drm_lock dev arg file_priv lbolt waits).got_lock = true →
      drm_i_have_hw_lock
        { (drm_lock dev arg file_priv lbolt waits).dev with
          lock := (drm_lock_free (drm_lock dev arg file_priv lbolt waits).dev.lock
            arg.context).2.1 }
        (drm_lock dev arg file_priv lbolt waits).file_priv = false) := by
  have key : ∀ (dev : drm_device) (file_priv : drm_file) (context : Nat),
      drm_i_have_hw_lock { dev with lock := (drm_lock_free dev.lock context).2.1 } file_priv
        = false := by
    intro dev file_priv context
    by_cases hk : dev.lock.kernel_waiters = 0
    · have hw : _DRM_LOCK_IS_HELD (drm_lock_free dev.lock context).2.1.hw_lock = 0 := by
        by_cases h : _DRM_LOCK_IS_HELD dev.lock.hw_lock ≠ 0 ∧
            _DRM_LOCKING_CONTEXT dev.lock.hw_lock ≠ context
        · rw [drm_lock_free_foreign dev.lock context hk h]
          exact is_held_locking_context _
        · rw [drm_lock_free_released dev.lock context hk h]
          exact is_held_locking_context _
      simp only [drm_i_have_hw_lock]
      rw [hw]
      simp
    · have hf : (drm_lock_free dev.lock context).2.1.file_priv = none := by
        rw [drm_lock_free_transfer dev.lock context hk]
      simp only [drm_i_have_hw_lock]
      rw [hf]
      simp
  refine ⟨?_, key, fun dev arg file_priv lbolt waits _ => key _ _ _⟩
  intro dev file_priv h
  simp only [drm_i_have_hw_lock]
  rw [h]
  simp

/-- Witness of C15: file 8 has never called `drm_lock`, and file 7 has just
released the lock it had taken with context 1; neither has the lock. -/
theorem drm_i_have_hw_lock_before_and_after_witness :
    drm_i_have_hw_lock
      ⟨⟨false, false, none, false, false⟩, ⟨0x80000001, some 8, 0, 0, 0, 0⟩, 1, 0, 1⟩
      ⟨8, 0⟩ = false ∧
    (drm_lock ⟨⟨false, false, none, false, false⟩, ⟨0, none, 0, 0, 0, 0⟩, 0, 0, 0⟩
      ⟨1, 0⟩ ⟨7, 0⟩ 0 []).got_lock = true ∧
    drm_i_have_hw_lock
      { (drm_lock ⟨⟨false, false, none, false, false⟩, ⟨0, none, 0, 0, 0, 0⟩, 0, 0, 0⟩
          ⟨1, 0⟩ ⟨7, 0⟩ 0 []).dev with
        lock := (drm_lock_free
          (drm_lock ⟨⟨false, false, none, false, false⟩, ⟨0, none, 0, 0, 0, 0⟩, 0, 0, 0⟩
            ⟨1, 0⟩ ⟨7, 0⟩ 0 []).dev.lock 1).2.1 }
      (drm_lock ⟨⟨false, false, none, false, false⟩, ⟨0, none, 0, 0, 0, 0⟩, 0, 0, 0⟩
        ⟨1, 0⟩ ⟨7, 0⟩ 0 []).file_priv = false :=
  ⟨drm_i_have_hw_lock_before_and_after.1 _ ⟨8, 0⟩ rfl, by decide,
    drm_i_have_hw_lock_before_and_after.2.2
      ⟨⟨false, false, none, false, false⟩, ⟨0, none, 0, 0, 0, 0⟩, 0, 0, 0⟩
      ⟨1, 0⟩ ⟨7, 0⟩ 0 [] (by decide)⟩

/-- C16: in every state reached from the initial state (lock word free, both
waiter counters 0, `idle_has_lock` clear) by any sequence of atomic steps of
`drm_lock` (with its wake-ups and signals), `drm_unlock`, `drm_lock_free`
with any context, `drm_idlelock_take` and `drm_idlelock_release`, in which
every idle release is matched by an earlier idle acquire and no counter
overflows, `idle_has_lock` set implies that the lock word is held with the
kernel context as owner (and that `kernel_waiters` is not zero). -/
theorem idle_has_lock_kernel_holds (driver : drm_driver) (os : List Op) (s : System)
    (hm : idle_matched 0 os) (hno : (System.init driver).no_overflow os)
    (hrun : (System.init driver).run_ops os = some s) :
    s.dev.lock.idle_has_lock ≠ 0 →
      _DRM_LOCK_IS_HELD s.dev.lock.hw_lock ≠ 0 ∧
      _DRM_LOCKING_CONTEXT s.dev.lock.hw_lock = DRM_KERNEL_CONTEXT ∧
      s.dev.lock.kernel_waiters ≠ 0 := by
  intro hidle
  have h0 : idle_invariant (System.init driver).dev.lock 0 :=
    ⟨rfl, fun hi => absurd rfl hi⟩
  obtain ⟨m, hk, hinv⟩ := idle_invariant_run os (System.init driver) s 0 h0 hm hno hrun
  obtain ⟨a, b, c⟩ := hinv hidle
  exact ⟨b, c, fun hz => a (hk.symm.trans hz)⟩

/-- Witness of C16: file 7 takes the lock with context 1, the kernel asks for
the idle lock, file 7 unlocks: the lock goes to the idle path. -/
theorem idle_has_lock_kernel_holds_witness :
    ∃ s : System,
      (System.init ⟨false, false, none, false, false⟩).run_ops
        [Op.call (Call.lock 7 ⟨1, 0⟩ 0), Op.call Call.idlelock_take,
          Op.call (Call.unlock 7 ⟨1, 0⟩)] = some s ∧
      s.dev.lock.idle_has_lock ≠ 0 ∧
      _DRM_LOCK_IS_HELD s.dev.lock.hw_lock ≠ 0 ∧
      _DRM_LOCKING_CONTEXT s.dev.lock.hw_lock = DRM_KERNEL_CONTEXT ∧
      s.dev.lock.kernel_waiters ≠ 0 :=
  ⟨_, rfl, by decide,
    idle_has_lock_kernel_holds ⟨false, false, none, false, false⟩
      [Op.call (Call.lock 7 ⟨1, 0⟩ 0), Op.call Call.idlelock_take,
        Op.call (Call.unlock 7 ⟨1, 0⟩)] _
      trivial
      ⟨by show (0 : Nat) + 1 < 2 ^ 32; decide, by show (0 : Nat) + 1 < 2 ^ 32; decide,
        trivial, trivial⟩
      rfl (by decide)⟩

/-- C17: the lock word invariant, contended implies held, is kept by every
function that writes the lock word: from a lock word that satisfies it, with
any waiter counts and any context, the words `drm_lock_take`,
`drm_lock_transfer`, `drm_lock_free`, `drm_idlelock_release` (and
`drm_idlelock_take`) leave satisfy it. -/
theorem contended_implies_held_kept (lock_data : drm_lock_data) (context : Nat)
    (h : contended_implies_held lock_data.hw_lock) :
    contended_implies_held (drm_lock_take lock_data context).2.1.hw_lock ∧
    contended_implies_held (drm_lock_transfer lock_data context).2.hw_lock ∧
    contended_implies_held (drm_lock_free lock_data context).2.1.hw_lock ∧
    contended_implies_held (drm_idlelock_release lock_data).1.hw_lock ∧
    contended_implies_held (drm_idlelock_take lock_data).1.hw_lock := by
  have hnew : ∀ x : Nat, contended_implies_held (context ||| _DRM_LOCK_HELD ||| x) := by
    intro x _
    show (context ||| _DRM_LOCK_HELD ||| x) &&& _DRM_LOCK_HELD ≠ 0
    rw [held_ne_zero_iff, testBit_new_31]
  have hor : ∀ w : Nat, w &&& _DRM_LOCK_HELD ≠ 0 →
      contended_implies_held (w ||| _DRM_LOCK_CONT) := by
    intro w hw _
    show (w ||| _DRM_LOCK_CONT) &&& _DRM_LOCK_HELD ≠ 0
    rw [and_HELD_or_cont]; exact hw
  have hctx : ∀ w : Nat, contended_implies_held (_DRM_LOCKING_CONTEXT w) := by
    intro w hc
    exact absurd (is_cont_locking_context w) hc
  have htake : ∀ (l : drm_lock_data) (c : Nat),
      contended_implies_held (drm_lock_take l c).2.1.hw_lock := by
    intro l c
    rw [drm_lock_take_lock_data]
    show contended_implies_held (drm_lock_take_new l c)
    by_cases hh : l.hw_lock &&& _DRM_LOCK_HELD ≠ 0
    · rw [drm_lock_take_new_held l c hh]; exact hor _ hh
    · rw [drm_lock_take_new_free l c hh]
      intro _
      show (c ||| _DRM_LOCK_HELD ||| _) &&& _DRM_LOCK_HELD ≠ 0
      rw [held_ne_zero_iff, testBit_new_31]
  have hzero : contended_implies_held (context ||| _DRM_LOCK_HELD) := by
    have := hnew 0
    rwa [Nat.or_zero] at this
  refine ⟨htake lock_data context, hzero, ?_, ?_, ?_⟩
  · by_cases hk : lock_data.kernel_waiters = 0
    · by_cases hf : _DRM_LOCK_IS_HELD lock_data.hw_lock ≠ 0 ∧
          _DRM_LOCKING_CONTEXT lock_data.hw_lock ≠ context
      · rw [drm_lock_free_foreign lock_data context hk hf]; exact hctx _
      · rw [drm_lock_free_released lock_data context hk hf]; exact hctx _
    · rw [drm_lock_free_transfer lock_data context hk]
      intro _
      show (0 ||| _DRM_LOCK_HELD) &&& _DRM_LOCK_HELD ≠ 0
      decide
  · by_cases hp : u32_dec lock_data.kernel_waiters = 0 ∧ lock_data.idle_has_lock ≠ 0
    · rw [drm_idlelock_release_parks lock_data hp.1 hp.2]
      intro hc
      exact absurd (by decide : _DRM_LOCK_IS_CONT DRM_KERNEL_CONTEXT = 0) hc
    · have hq : u32_dec lock_data.kernel_waiters ≠ 0 ∨ lock_data.idle_has_lock = 0 := by
        by_cases h1 : u32_dec lock_data.kernel_waiters = 0
        · right
          by_contra h2
          exact hp ⟨h1, h2⟩
        · exact Or.inl h1
      rw [drm_idlelock_release_counts lock_data hq]
      exact h
  · by_cases h0 : lock_data.idle_has_lock = 0
    · by_cases hh : lock_data.hw_lock &&& _DRM_LOCK_HELD ≠ 0
      · rw [drm_idlelock_take_of_held lock_data h0 hh]; exact hor _ hh
      · rw [drm_idlelock_take_of_free lock_data h0 hh]
        have := htake { lock_data with kernel_waiters := u32_inc lock_data.kernel_waiters }
          DRM_KERNEL_CONTEXT
        rw [drm_lock_take_lock_data] at this
        exact this
    · rw [drm_idlelock_take_of_idle lock_data h0]; exact h

/-- Witness of C17: context 2 tries the lock context 1 holds uncontended. -/
theorem contended_implies_held_kept_witness :
    contended_implies_held (⟨0x80000001, some 7, 0, 0, 1, 0⟩ : drm_lock_data).hw_lock ∧
    contended_implies_held (drm_lock_take ⟨0x80000001, some 7, 0, 0, 1, 0⟩ 2).2.1.hw_lock :=
  ⟨fun _ => by decide,
    (contended_implies_held_kept ⟨0x80000001, some 7, 0, 0, 1, 0⟩ 2 (fun _ => by decide)).1⟩

/-- C18, the code at the failing input: from the initial state file 7 takes
the lock with context 1 and unlocks it (no kernel waiter: the lock is freed,
the recorded holder stays), then `drm_idlelock_take` takes the free lock for
the kernel. File 7 holds no acquisition, the lock word is held with the
kernel context as owner, and `drm_i_have_hw_lock` of file 7 is true. -/
theorem drm_i_have_hw_lock_after_idle_take :
    ((System.init ⟨false, false, none, false, false⟩).run
        [Call.lock 7 ⟨1, 0⟩ 0, Call.unlock 7 ⟨1, 0⟩, Call.idlelock_take]).map
      (fun s => (drm_i_have_hw_lock s.dev ⟨7, s.lock_count 7⟩, s.holding, s.dev.lock)) =
    some (true, [], ⟨0x80000000, some 7, 0, 1, 0, 1⟩) ∧
    _DRM_LOCKING_CONTEXT 0x80000000 = DRM_KERNEL_CONTEXT := by
  decide

/-- C19, what the code does: on a free lock word, `drm_lock_take` with a
context that does not fit the owner field (bit 30 or a higher bit set) returns
0, yet the lock word it leaves is held, with the low 30 bits of the context
as owner. -/
theorem drm_lock_take_fails_but_takes (lock_data : drm_lock_data) (context : Nat)
    (hfree : _DRM_LOCK_IS_HELD lock_data.hw_lock = 0) (hbig : 2 ^ 30 ≤ context) :
    (drm_lock_take lock_data context).1 = 0 ∧
    _DRM_LOCK_IS_HELD (drm_lock_take lock_data context).2.1.hw_lock ≠ 0 ∧
    _DRM_LOCKING_CONTEXT (drm_lock_take lock_data context).2.1.hw_lock = context % 2 ^ 30 := by
  have h1 : ¬ lock_data.hw_lock &&& _DRM_LOCK_HELD ≠ 0 := fun hh => hh hfree
  have hne : ¬ context % 2 ^ 30 = context := by
    intro he
    have := Nat.mod_lt context (show 0 < 2 ^ 30 by norm_num)
    omega
  rw [drm_lock_take_ret_free lock_data context h1, if_neg hne, drm_lock_take_lock_data,
    drm_lock_take_new_free lock_data context h1]
  refine ⟨rfl, ?_, ?_⟩
  · show (context ||| _DRM_LOCK_HELD ||| _) &&& _DRM_LOCK_HELD ≠ 0
    rw [held_ne_zero_iff, testBit_new_31]
  · show _DRM_LOCKING_CONTEXT (context ||| _DRM_LOCK_HELD ||| _) = context % 2 ^ 30
    rw [locking_context_new]
    split_ifs
    · exact Or.inl rfl
    · exact Or.inr rfl

/-- Witness of C19, the failing input: the lock is free (lock word 5) and
`drm_lock_take` is called with context `0x40000005`, which has bit 30 set. The
call returns 0, yet the lock word it leaves, `0xC0000005`, is held (and
contended) with owner 5; with bit 31 set (`0x80000005` on the free word 7) the
call returns 0 and leaves the word held with owner 5 instead of 7. -/
theorem drm_lock_take_fails_but_takes_witness :
    _DRM_LOCK_IS_HELD (⟨5, none, 0, 0, 1, 0⟩ : drm_lock_data).hw_lock = 0 ∧
    (drm_lock_take ⟨5, none, 0, 0, 1, 0⟩ 0x40000005).1 = 0 ∧
    _DRM_LOCK_IS_HELD (drm_lock_take ⟨5, none, 0, 0, 1, 0⟩ 0x40000005).2.1.hw_lock ≠ 0 ∧
    (drm_lock_take ⟨5, none, 0, 0, 1, 0⟩ 0x40000005).2.1.hw_lock = 0xC0000005 ∧
    (drm_lock_take ⟨7, none, 0, 0, 1, 0⟩ 0x80000005).1 = 0 ∧
    (drm_lock_take ⟨7, none, 0, 0, 1, 0⟩ 0x80000005).2.1.hw_lock = 0x80000005 ∧
    _DRM_LOCKING_CONTEXT (drm_lock_take ⟨7, none, 0, 0, 1, 0⟩ 0x80000005).2.1.hw_lock ≠
      _DRM_LOCKING_CONTEXT (⟨7, none, 0, 0, 1, 0⟩ : drm_lock_data).hw_lock :=
  have h := drm_lock_take_fails_but_takes ⟨5, none, 0, 0, 1, 0⟩ 0x40000005 (by decide) (by decide)
  ⟨by decide, h.1, h.2.1, by decide, by decide, by decide, by decide⟩

end Drm
